import Mathlib

/-!
Shallow embedding of the Monte-Carlo structural stress-testing engines:
the amortizing multi-tranche waterfall variant
(`MonteCarlo_Risk_Engine/src/engine.py`) and the regime-switching
refinance-cliff variant (`src/engine.py`).  Python floats are modelled as
real numbers, the numpy `Generator` as an explicit stream of draw values
with a position counter, and dictionary key lookup as `Option` access.
-/

noncomputable section

/-- `np.clip(x, lo, hi)`. -/
def clip (x lo hi : ℝ) : ℝ := min (max x lo) hi

/-- A random source: a fixed stream of draw values together with the
position of the next draw.  Each call to `rng.normal()` / `rng.random()`
consumes one value and advances the position. -/
structure Rng where
  vals : ℕ → ℝ
  pos : ℕ

/-- One draw: the value at the current position, and the advanced source. -/
def Rng.next (r : Rng) : ℝ × Rng := (r.vals r.pos, ⟨r.vals, r.pos + 1⟩)

/-- Per-driver block of `cfg["risk_engine"]`: `base`, `shock_coef`,
`clip_min`, `clip_max`. -/
structure DriverCfg where
  base : ℝ
  shock_coef : ℝ
  clip_min : ℝ
  clip_max : ℝ

/-- The `risk_engine` section (identical in both engines). -/
structure RiskEngineCfg where
  rho_default : ℝ
  rho_lgd : ℝ
  rho_margin : ℝ
  default_rate : DriverCfg
  lgd : DriverCfg
  margin_shock : DriverCfg

/-- The `sim` section: path count `N` and horizon `H` in months. -/
structure SimCfg where
  N : ℕ
  H : ℕ

/-- The `portfolio` section. -/
structure PortfolioCfg where
  notional : ℝ
  annual_coupon_rate : ℝ

namespace Waterfall

/-- Parameters the waterfall path simulator reads from the configuration:
`cfg["sim"]["H"]`, `cfg["portfolio"]["notional"]`,
`cfg["portfolio"]["annual_coupon_rate"]`. -/
structure WParams where
  H : ℕ
  notional : ℝ
  annual_coupon_rate : ℝ

/-- Mutable state of the monthly loop of `_simulate_one_path`
(waterfall variant). -/
structure WState where
  A_bal : ℝ
  B_bal : ℝ
  C_bal : ℝ
  WH_bal : ℝ
  outstanding : ℝ
  total_income : ℝ

/-- Total funding balance `A_bal + B_bal + C_bal + WH_bal`. -/
def sumBal (s : WState) : ℝ := s.A_bal + s.B_bal + s.C_bal + s.WH_bal

/-- The scalar quantities `_simulate_one_path` derives from the
configuration before the monthly loop: tranche limits, monthly funding
rates, monthly coupon and monthly principal repayment. -/
structure WDerived where
  A_limit : ℝ
  B_limit : ℝ
  C_limit : ℝ
  A_rate : ℝ
  B_rate : ℝ
  C_rate : ℝ
  WH_rate : ℝ
  coupon_m : ℝ
  monthly_principal : ℝ

/-- The derived scalars as the source hardcodes them:
`A_limit = notional * 0.6`, `B_limit = notional * 0.2`,
`C_limit = notional * 0.1`, annual funding rates `0.05/0.07/0.10/0.08`
divided by 12, `coupon_m = (annual_coupon_rate + margin_shock)/12`,
`monthly_principal = notional / H`. -/
def wDerivedOf (p : WParams) (margin_shock : ℝ) : WDerived :=
  { A_limit := p.notional * 0.6
    B_limit := p.notional * 0.2
    C_limit := p.notional * 0.1
    A_rate := 0.05 / 12
    B_rate := 0.07 / 12
    C_rate := 0.10 / 12
    WH_rate := 0.08 / 12
    coupon_m := (p.annual_coupon_rate + margin_shock) / 12
    monthly_principal := p.notional / (p.H : ℝ) }

/-- The `if t > 0` funding-draw block: sequential draws into A, then B,
then C, each `min(limit - balance, funding_needed)`, then the warehouse
absorbs the remainder `max(outstanding - (A+B+C), 0)`. -/
def wDraws (d : WDerived) (s : WState) (t : ℕ) : WState :=
  if 0 < t then
    let funding_needed := s.outstanding - (s.A_bal + s.B_bal + s.C_bal)
    let draw_A := min (d.A_limit - s.A_bal) funding_needed
    let A_bal := s.A_bal + draw_A
    let funding_needed := funding_needed - draw_A
    let draw_B := min (d.B_limit - s.B_bal) funding_needed
    let B_bal := s.B_bal + draw_B
    let funding_needed := funding_needed - draw_B
    let draw_C := min (d.C_limit - s.C_bal) funding_needed
    let C_bal := s.C_bal + draw_C
    let WH_bal := max (s.outstanding - (A_bal + B_bal + C_bal)) 0
    { s with A_bal := A_bal, B_bal := B_bal, C_bal := C_bal, WH_bal := WH_bal }
  else s

/-- Income/cost accrual:
`total_income += outstanding * coupon_m - Σ balance_i * rate_i`. -/
def wAccrue (d : WDerived) (s : WState) : WState :=
  let interest_income := s.outstanding * d.coupon_m
  let funding_cost :=
    s.A_bal * d.A_rate + s.B_bal * d.B_rate + s.C_bal * d.C_rate + s.WH_bal * d.WH_rate
  { s with total_income := s.total_income + (interest_income - funding_cost) }

/-- Pro-rata principal repayment: when the total funding balance is
positive each balance is reduced by `repay * balance / total_bal`,
otherwise the balances are left unchanged; `outstanding` is always
reduced by `repay`. -/
def wRepay (repay : ℝ) (s : WState) : WState :=
  let total_bal := s.A_bal + s.B_bal + s.C_bal + s.WH_bal
  let s' :=
    if 0 < total_bal then
      { s with A_bal := s.A_bal - repay * s.A_bal / total_bal
               B_bal := s.B_bal - repay * s.B_bal / total_bal
               C_bal := s.C_bal - repay * s.C_bal / total_bal
               WH_bal := s.WH_bal - repay * s.WH_bal / total_bal }
    else s
  { s' with outstanding := s'.outstanding - repay }

/-- One iteration of the monthly loop: funding draws (for `t > 0`), then
accrual, then pro-rata repayment. -/
def wStep (d : WDerived) (s : WState) (t : ℕ) : WState :=
  wRepay d.monthly_principal (wAccrue d (wDraws d s t))

/-- Initial state: all tranche balances zero, warehouse balance equal to
the full notional (month-0 bridge), `outstanding = notional`. -/
def wInit (notional : ℝ) : WState :=
  { A_bal := 0, B_bal := 0, C_bal := 0, WH_bal := notional
    outstanding := notional, total_income := 0 }

/-- State after the first `t` monthly iterations. -/
def wFoldTo (d : WDerived) (notional : ℝ) (t : ℕ) : WState :=
  (List.range t).foldl (wStep d) (wInit notional)

/-- Per-path result record of the waterfall variant. -/
structure WResult where
  total_net_income : ℝ
  default_rate : ℝ
  lgd : ℝ
  margin_shock : ℝ
  A_loss : ℝ
  B_loss : ℝ
  C_loss : ℝ
  WH_loss : ℝ

/-- The terminal default-loss allocation:
`cum_default = min(default_rate * (H/12), 1)`,
`total_loss = notional * cum_default * lgd`, then the cascade C, B, A,
Warehouse, each absorbing `min(balance, remaining_loss)`. -/
def loss_alloc (s : WState) (default_rate lgd margin_shock notional : ℝ) (H : ℕ) :
    WResult :=
  let cum_default := min (default_rate * ((H : ℝ) / 12)) 1
  let total_loss := notional * cum_default * lgd
  let remaining_loss := total_loss
  let C_loss := min s.C_bal remaining_loss
  let remaining_loss := remaining_loss - C_loss
  let B_loss := min s.B_bal remaining_loss
  let remaining_loss := remaining_loss - B_loss
  let A_loss := min s.A_bal remaining_loss
  let remaining_loss := remaining_loss - A_loss
  let WH_loss := min s.WH_bal remaining_loss
  { total_net_income := s.total_income - total_loss
    default_rate := default_rate
    lgd := lgd
    margin_shock := margin_shock
    A_loss := A_loss
    B_loss := B_loss
    C_loss := C_loss
    WH_loss := WH_loss }

/-- `_simulate_one_path` of the waterfall engine, after the configuration
reads: H monthly iterations from the bridge-funded initial state, then
the terminal loss allocation. -/
def simulate_one_path (p : WParams) (default_rate lgd margin_shock : ℝ) : WResult :=
  loss_alloc (wFoldTo (wDerivedOf p margin_shock) p.notional p.H)
    default_rate lgd margin_shock p.notional p.H

/-- Per-tranche entry of the spec's waterfall `FundingConfig`. -/
structure TrancheCfg where
  limit_fraction_of_notional : ℝ
  funding_rate_annual : ℝ

/-- The spec's waterfall `FundingConfig`: entries for tranches A, B, C
and the residual warehouse tranche. -/
structure FundingConfigW where
  A : TrancheCfg
  B : TrancheCfg
  C : TrancheCfg
  WH : TrancheCfg

/-- Modelled from the spec: derived scalars when, as the spec's
`FundingConfig` (waterfall variant) describes, each tranche's capacity
limit is `limit_fraction_of_notional × notional` and each tranche's
funding rate is `funding_rate_annual`, taken from the per-tranche
configuration entries. -/
def wDerivedOfSpec (fc : FundingConfigW) (p : WParams) (margin_shock : ℝ) : WDerived :=
  { A_limit := fc.A.limit_fraction_of_notional * p.notional
    B_limit := fc.B.limit_fraction_of_notional * p.notional
    C_limit := fc.C.limit_fraction_of_notional * p.notional
    A_rate := fc.A.funding_rate_annual / 12
    B_rate := fc.B.funding_rate_annual / 12
    C_rate := fc.C.funding_rate_annual / 12
    WH_rate := fc.WH.funding_rate_annual / 12
    coupon_m := (p.annual_coupon_rate + margin_shock) / 12
    monthly_principal := p.notional / (p.H : ℝ) }

/-- Modelled from the spec: the waterfall path simulator as it would be
if tranche limits and funding rates were taken from the supplied
`FundingConfig` entries. -/
def simulate_one_path_specFunding (fc : FundingConfigW) (p : WParams)
    (default_rate lgd margin_shock : ℝ) : WResult :=
  loss_alloc (wFoldTo (wDerivedOfSpec fc p margin_shock) p.notional p.H)
    default_rate lgd margin_shock p.notional p.H

/-- `_sample_params` of the waterfall engine, after the `risk_engine`
read: draws `Z, e1, e2, e3`, forms the correlated drivers and clips. -/
def sample_params_vals (re : RiskEngineCfg) (r : Rng) : (ℝ × ℝ × ℝ) × Rng :=
  let Z := r.next.1
  let r := r.next.2
  let e1 := r.next.1
  let r := r.next.2
  let e2 := r.next.1
  let r := r.next.2
  let e3 := r.next.1
  let r := r.next.2
  let z_default := Real.sqrt re.rho_default * Z + Real.sqrt (1 - re.rho_default) * e1
  let z_lgd := Real.sqrt re.rho_lgd * Z + Real.sqrt (1 - re.rho_lgd) * e2
  let z_margin := Real.sqrt re.rho_margin * Z + Real.sqrt (1 - re.rho_margin) * e3
  let default_rate :=
    clip (re.default_rate.base + re.default_rate.shock_coef * (-z_default))
      re.default_rate.clip_min re.default_rate.clip_max
  let lgd :=
    clip (re.lgd.base + re.lgd.shock_coef * (-z_lgd)) re.lgd.clip_min re.lgd.clip_max
  let margin_shock :=
    clip (re.margin_shock.shock_coef * z_margin)
      re.margin_shock.clip_min re.margin_shock.clip_max
  ((default_rate, lgd, margin_shock), r)

/-- The full configuration bundle handed to the waterfall engine; each
section is a dictionary key that may be absent.  The `funding` section
may be present in the bundle. -/
structure WaterfallCfg where
  seed : Option ℤ
  sim : Option SimCfg
  portfolio : Option PortfolioCfg
  risk_engine : Option RiskEngineCfg
  funding : Option FundingConfigW

/-- `_sample_params(rng, cfg)`: fails iff `cfg["risk_engine"]` is
missing.  -/
def sample_params (cfg : WaterfallCfg) (r : Rng) : Option ((ℝ × ℝ × ℝ) × Rng) :=
  match cfg.risk_engine with
  | none => none
  | some re => some (sample_params_vals re r)

/-- The configuration reads of the waterfall `_simulate_one_path`:
`cfg["sim"]["H"]`, `cfg["portfolio"]["notional"]`,
`cfg["portfolio"]["annual_coupon_rate"]`. -/
def read_params (cfg : WaterfallCfg) : Option WParams :=
  match cfg.sim, cfg.portfolio with
  | some sim, some pf => some ⟨sim.H, pf.notional, pf.annual_coupon_rate⟩
  | _, _ => none

/-- `_simulate_one_path(cfg, ...)` at the configuration level. -/
def simulate_one_path_cfg (cfg : WaterfallCfg) (default_rate lgd margin_shock : ℝ) :
    Option WResult :=
  (read_params cfg).map fun p => simulate_one_path p default_rate lgd margin_shock

/-- One (sampler, path-simulator) call, threading the random source. -/
def wPath (re : RiskEngineCfg) (p : WParams) (r : Rng) : WResult × Rng :=
  let s := sample_params_vals re r
  (simulate_one_path p s.1.1 s.1.2.1 s.1.2.2, s.2)

/-- `n` sequential (sampler, path-simulator) calls, collecting results
in simulation order. -/
def wList (re : RiskEngineCfg) (p : WParams) : ℕ → Rng → List WResult
  | 0, _ => []
  | n + 1, r =>
    let s := wPath re p r
    s.1 :: wList re p n s.2

/-- The loop of `run_mc` (waterfall variant): `N` sequential iterations,
each a sampler call followed by a path-simulator call, appending the
result. -/
def run_aux (cfg : WaterfallCfg) : ℕ → Rng → Option (List WResult)
  | 0, _ => some []
  | n + 1, r =>
    match sample_params cfg r with
    | none => none
    | some q =>
      match simulate_one_path_cfg cfg q.1.1 q.1.2.1 q.1.2.2 with
      | none => none
      | some res =>
        match run_aux cfg n q.2 with
        | none => none
        | some rest => some (res :: rest)

/-- `run_mc` (waterfall variant): reads `cfg["seed"]` (which determines
the random source) and `cfg["sim"]["N"]`, then runs the loop. -/
def run_mc (cfg : WaterfallCfg) (r : Rng) : Option (List WResult) :=
  match cfg.seed with
  | none => none
  | some _ =>
    match cfg.sim with
    | none => none
    | some sim => run_aux cfg sim.N r

end Waterfall

namespace Regime

/-- The `funding` section of the regime-switching engine: every key is
read with `funding_cfg.get(key, default)`, so each may be absent. -/
structure RFundingCfg where
  p_freeze_start : Option ℝ
  p_freeze_persist : Option ℝ
  refinance_fail_prob : Option ℝ
  refinance_fail_sens : Option ℝ
  forced_sale_haircut : Option ℝ
  haircut_sens : Option ℝ
  haircut_noise : Option ℝ
  haircut_min : Option ℝ
  haircut_max : Option ℝ

/-- The full configuration bundle handed to the regime engine. -/
structure RegimeCfg where
  seed : Option ℤ
  sim : Option SimCfg
  portfolio : Option PortfolioCfg
  risk_engine : Option RiskEngineCfg
  funding : Option RFundingCfg

/-- The scalar parameters `_simulate_one_path` (regime variant) reads
before its loop, named as the source's locals. -/
structure RParams where
  H : ℕ
  notional : ℝ
  annual_coupon_rate : ℝ
  p_freeze_start : ℝ
  p_freeze_persist : ℝ
  base_fail : ℝ
  fail_sens : ℝ
  base_haircut : ℝ
  hair_sens : ℝ
  hair_noise : ℝ
  hair_min : ℝ
  hair_max : ℝ

/-- An absent `funding` section behaves as the empty dictionary. -/
def emptyFunding : RFundingCfg := ⟨none, none, none, none, none, none, none, none, none⟩

/-- The source's hardcoded funding defaults, written as an explicit
funding section. -/
def defaultFunding : RFundingCfg :=
  ⟨some 0.06, some 0.70, some 0.50, some 0.35, some 0.30, some 0.25,
    some 0.10, some 0.10, some 0.70⟩

/-- The configuration reads of the regime `_simulate_one_path`:
`cfg["sim"]["H"]`, the `portfolio` keys (indexed, hence required), and
the `funding` keys via `.get` with the source's default values. -/
def read_params (cfg : RegimeCfg) : Option RParams :=
  match cfg.sim, cfg.portfolio with
  | some sim, some pf =>
    let f := cfg.funding.getD emptyFunding
    some
      { H := sim.H
        notional := pf.notional
        annual_coupon_rate := pf.annual_coupon_rate
        p_freeze_start := f.p_freeze_start.getD 0.06
        p_freeze_persist := f.p_freeze_persist.getD 0.70
        base_fail := f.refinance_fail_prob.getD 0.50
        fail_sens := f.refinance_fail_sens.getD 0.35
        base_haircut := f.forced_sale_haircut.getD 0.30
        hair_sens := f.haircut_sens.getD 0.25
        hair_noise := f.haircut_noise.getD 0.10
        hair_min := f.haircut_min.getD 0.10
        hair_max := f.haircut_max.getD 0.70 }
  | _, _ => none

/-- The bullet term default probability (source lines 63–65):
`p_default_term = clip(1 - (1 - clip(default_rate, 0, 1)) ** (H/12), 0, 1)`. -/
def p_default_term (default_rate : ℝ) (H : ℕ) : ℝ :=
  clip (1 - (1 - clip default_rate 0 1) ^ ((H : ℝ) / 12)) 0 1

/-- Mutable state of the monthly loop of the regime `_simulate_one_path`. -/
structure RState where
  total_income : ℝ
  credit_loss : ℝ
  liquidity_loss : ℝ
  in_freeze : Bool
  outstanding : ℝ
  rng : Rng

/-- The freeze-gated refinance block (source lines 90–101): the
stress-dependent failure probability, the stressed noisy haircut
(consuming one normal draw), then the Bernoulli failure draw; on failure
the liquidity loss is `notional - notional * (1 - haircut)`, otherwise
the prior liquidity loss `liq0` is kept. -/
def refi_block (p : RParams) (Z liq0 : ℝ) (r : Rng) : ℝ × Rng :=
  let p_fail := clip (p.base_fail + p.fail_sens * max (-Z) 0) 0 0.995
  let hc0 := r.next.1
  let r1 := r.next.2
  let hc := clip (p.base_haircut + p.hair_sens * max (-Z) 0 + p.hair_noise * hc0)
    p.hair_min p.hair_max
  let uf := r1.next.1
  let r2 := r1.next.2
  if uf < p_fail then
    let forced_value := p.notional * (1 - hc)
    (p.notional - forced_value, r2)
  else (liq0, r2)

/-- Modelled from the spec: the refinance block as §4.3 words it —
"Draw Bernoulli `p_fail`; on failure, compute a stressed, noisy haircut
… and set `liquidity_loss = notional × haircut`" — i.e. the Bernoulli
draw is taken first and the haircut (with its normal draw) is computed
only on failure. -/
def refi_block_specOrder (p : RParams) (Z liq0 : ℝ) (r : Rng) : ℝ × Rng :=
  let p_fail := clip (p.base_fail + p.fail_sens * max (-Z) 0) 0 0.995
  let uf := r.next.1
  let r1 := r.next.2
  if uf < p_fail then
    let hc0 := r1.next.1
    let r2 := r1.next.2
    let hc := clip (p.base_haircut + p.hair_sens * max (-Z) 0 + p.hair_noise * hc0)
      p.hair_min p.hair_max
    (p.notional * hc, r2)
  else (liq0, r1)

/-- One iteration of the monthly loop: the Markov freeze transition (one
uniform draw), income accrual, and at `t = H - 1` the terminal block:
the default draw, then the freeze-gated refinance block. -/
def rStep (p : RParams) (Z lgd coupon_m pdt : ℝ) (s : RState) (t : ℕ) : RState :=
  let u := s.rng.next.1
  let r1 := s.rng.next.2
  let f : Bool :=
    if s.in_freeze then decide (u < p.p_freeze_persist) else decide (u < p.p_freeze_start)
  let total_income := s.total_income + s.outstanding * coupon_m
  if t = p.H - 1 then
    let ud := r1.next.1
    let r2 := r1.next.2
    let D : ℝ := if ud < pdt then 1 else 0
    let credit_loss := p.notional * D * lgd
    let liq := if f then refi_block p Z s.liquidity_loss r2 else (s.liquidity_loss, r2)
    { total_income := total_income - (credit_loss + liq.1)
      credit_loss := credit_loss
      liquidity_loss := liq.1
      in_freeze := f
      outstanding := 0
      rng := liq.2 }
  else
    { s with total_income := total_income, in_freeze := f, rng := r1 }

/-- Initial loop state: no income, no losses, not in freeze,
`outstanding = notional`. -/
def rInit (notional : ℝ) (r : Rng) : RState :=
  { total_income := 0, credit_loss := 0, liquidity_loss := 0
    in_freeze := false, outstanding := notional, rng := r }

/-- The loop state after all `H` iterations, with
`coupon_m = (annual_coupon_rate + margin_shock) / 12` and the term
default probability computed from the sampled default rate. -/
def rFold (p : RParams) (Z default_rate lgd margin_shock : ℝ) (r : Rng) : RState :=
  (List.range p.H).foldl
    (rStep p Z lgd ((p.annual_coupon_rate + margin_shock) / 12)
      (p_default_term default_rate p.H))
    (rInit p.notional r)

/-- `n` successive Markov freeze transitions from state `f`, consuming
one uniform draw each. -/
def freezeSteps (p : RParams) : ℕ → Bool → Rng → Bool × Rng
  | 0, f, r => (f, r)
  | n + 1, f, r =>
    freezeSteps p n
      (if f then decide (r.next.1 < p.p_freeze_persist)
       else decide (r.next.1 < p.p_freeze_start))
      r.next.2

/-- The freeze state at the terminal month: the result of the `H`-th
Markov transition, the last one taken at `t = H - 1` inside the terminal
iteration. -/
def terminalFreeze (p : RParams) (r : Rng) : Bool :=
  if (freezeSteps p (p.H - 1) false r).1 then
    decide (r.vals (r.pos + (p.H - 1)) < p.p_freeze_persist)
  else decide (r.vals (r.pos + (p.H - 1)) < p.p_freeze_start)

/-- Per-path result record of the regime variant. -/
structure RResult where
  total_net_income : ℝ
  credit_loss : ℝ
  liquidity_loss : ℝ
  Z_sys : ℝ
  default_rate : ℝ
  lgd : ℝ
  margin_shock : ℝ

/-- The regime `_simulate_one_path` after the configuration reads: run
the loop and package the result, returning the advanced random source. -/
def simulate_path_core (p : RParams) (Z default_rate lgd margin_shock : ℝ) (r : Rng) :
    RResult × Rng :=
  let s := rFold p Z default_rate lgd margin_shock r
  (⟨s.total_income, s.credit_loss, s.liquidity_loss, Z, default_rate, lgd, margin_shock⟩,
    s.rng)

/-- `_sample_systemic(rng)`: one normal draw. -/
def sample_systemic (r : Rng) : ℝ × Rng := r.next

/-- `_sample_params(rng, cfg, Z)` after the `risk_engine` read: three
idiosyncratic normal draws and the clipped correlated drivers. -/
def sample_params_vals (re : RiskEngineCfg) (Z : ℝ) (r : Rng) : (ℝ × ℝ × ℝ) × Rng :=
  let e1 := r.next.1
  let r := r.next.2
  let e2 := r.next.1
  let r := r.next.2
  let e3 := r.next.1
  let r := r.next.2
  let z_default := Real.sqrt re.rho_default * Z + Real.sqrt (1 - re.rho_default) * e1
  let z_lgd := Real.sqrt re.rho_lgd * Z + Real.sqrt (1 - re.rho_lgd) * e2
  let z_margin := Real.sqrt re.rho_margin * Z + Real.sqrt (1 - re.rho_margin) * e3
  let default_rate :=
    clip (re.default_rate.base + re.default_rate.shock_coef * (-z_default))
      re.default_rate.clip_min re.default_rate.clip_max
  let lgd :=
    clip (re.lgd.base + re.lgd.shock_coef * (-z_lgd)) re.lgd.clip_min re.lgd.clip_max
  let margin_shock :=
    clip (re.margin_shock.shock_coef * z_margin)
      re.margin_shock.clip_min re.margin_shock.clip_max
  ((default_rate, lgd, margin_shock), r)

/-- `_sample_params(rng, cfg, Z)`: fails iff `cfg["risk_engine"]` is
missing. -/
def sample_params (cfg : RegimeCfg) (Z : ℝ) (r : Rng) : Option ((ℝ × ℝ × ℝ) × Rng) :=
  match cfg.risk_engine with
  | none => none
  | some re => some (sample_params_vals re Z r)

/-- The regime `_simulate_one_path` at the configuration level. -/
def simulate_one_path (cfg : RegimeCfg) (Z default_rate lgd margin_shock : ℝ) (r : Rng) :
    Option (RResult × Rng) :=
  (read_params cfg).map fun p => simulate_path_core p Z default_rate lgd margin_shock r

/-- One (sampler, path-simulator) call of the regime variant, threading
the random source. -/
def rPath (re : RiskEngineCfg) (p : RParams) (r : Rng) : RResult × Rng :=
  let z := sample_systemic r
  let s := sample_params_vals re z.1 z.2
  simulate_path_core p z.1 s.1.1 s.1.2.1 s.1.2.2 s.2

/-- `n` sequential (sampler, path-simulator) calls of the regime
variant, collecting results in simulation order. -/
def rList (re : RiskEngineCfg) (p : RParams) : ℕ → Rng → List RResult
  | 0, _ => []
  | n + 1, r =>
    let s := rPath re p r
    s.1 :: rList re p n s.2

/-- The loop of the regime `run_mc`. -/
def run_aux (cfg : RegimeCfg) : ℕ → Rng → Option (List RResult)
  | 0, _ => some []
  | n + 1, r =>
    let z := sample_systemic r
    match sample_params cfg z.1 z.2 with
    | none => none
    | some q =>
      match simulate_one_path cfg z.1 q.1.1 q.1.2.1 q.1.2.2 q.2 with
      | none => none
      | some res =>
        match run_aux cfg n res.2 with
        | none => none
        | some rest => some (res.1 :: rest)

/-- `run_mc` (regime variant): reads `cfg["seed"]` (which determines the
random source) and `cfg["sim"]["N"]`, then runs the loop. -/
def run_mc (cfg : RegimeCfg) (r : Rng) : Option (List RResult) :=
  match cfg.seed with
  | none => none
  | some _ =>
    match cfg.sim with
    | none => none
    | some sim => run_aux cfg sim.N r

end Regime

/-! ### Basic lemmas -/

lemma Waterfall.wFoldTo_succ (d : Waterfall.WDerived) (notional : ℝ) (t : ℕ) :
    Waterfall.wFoldTo d notional (t + 1) =
      Waterfall.wStep d (Waterfall.wFoldTo d notional t) t := by
  simp [Waterfall.wFoldTo, List.range_succ]

lemma Waterfall.loss_alloc_facts (s : Waterfall.WState) (dr lgd ms notional : ℝ) (H : ℕ) :
    let tl := notional * min (dr * ((H : ℝ) / 12)) 1 * lgd
    let res := Waterfall.loss_alloc s dr lgd ms notional H
    res.total_net_income = s.total_income - tl ∧
    res.C_loss = min s.C_bal tl ∧
    res.C_loss ≤ s.C_bal ∧ res.B_loss ≤ s.B_bal ∧ res.A_loss ≤ s.A_bal ∧
    res.WH_loss ≤ s.WH_bal ∧
    0 ≤ tl - res.C_loss ∧
    0 ≤ tl - res.C_loss - res.B_loss ∧
    0 ≤ tl - res.C_loss - res.B_loss - res.A_loss ∧
    0 ≤ tl - res.C_loss - res.B_loss - res.A_loss - res.WH_loss ∧
    res.C_loss + res.B_loss + res.A_loss + res.WH_loss ≤ tl := by
  intro tl res
  have hC : res.C_loss = min s.C_bal tl := rfl
  have hB : res.B_loss = min s.B_bal (tl - res.C_loss) := rfl
  have hA : res.A_loss = min s.A_bal (tl - res.C_loss - res.B_loss) := rfl
  have hW : res.WH_loss = min s.WH_bal (tl - res.C_loss - res.B_loss - res.A_loss) := rfl
  have hI : res.total_net_income = s.total_income - tl := rfl
  have h1 : res.C_loss ≤ tl := hC ▸ min_le_right _ _
  have h2 : res.B_loss ≤ tl - res.C_loss := hB ▸ min_le_right _ _
  have h3 : res.A_loss ≤ tl - res.C_loss - res.B_loss := hA ▸ min_le_right _ _
  have h4 : res.WH_loss ≤ tl - res.C_loss - res.B_loss - res.A_loss := hW ▸ min_le_right _ _
  refine ⟨hI, hC, hC ▸ min_le_left _ _, hB ▸ min_le_left _ _, hA ▸ min_le_left _ _,
    hW ▸ min_le_left _ _, by linarith, by linarith, by linarith, by linarith, by linarith⟩

/-- Claim C2: in the waterfall variant, after the H-step loop, the
terminal loss `total_loss = notional * min(default_rate * H/12, 1) * lgd`
is allocated in the order C, then B, then A, then Warehouse, each tranche
absorbing `min(its current balance, remaining_loss)`; consequently each
tranche's loss is at most its balance at maturity, the remaining loss is
non-negative after every cascade step, and the sum of the four allocated
losses is at most `total_loss`. -/
theorem waterfall_loss_cascade (p : Waterfall.WParams) (dr lgd ms tl : ℝ)
    (s : Waterfall.WState) (res : Waterfall.WResult)
    (hs : s = Waterfall.wFoldTo (Waterfall.wDerivedOf p ms) p.notional p.H)
    (hres : res = Waterfall.simulate_one_path p dr lgd ms)
    (htl : tl = p.notional * min (dr * ((p.H : ℝ) / 12)) 1 * lgd) :
    res.total_net_income = s.total_income - tl ∧
    res.C_loss = min s.C_bal tl ∧
    res.C_loss ≤ s.C_bal ∧ res.B_loss ≤ s.B_bal ∧ res.A_loss ≤ s.A_bal ∧
    res.WH_loss ≤ s.WH_bal ∧
    0 ≤ tl - res.C_loss ∧
    0 ≤ tl - res.C_loss - res.B_loss ∧
    0 ≤ tl - res.C_loss - res.B_loss - res.A_loss ∧
    0 ≤ tl - res.C_loss - res.B_loss - res.A_loss - res.WH_loss ∧
    res.C_loss + res.B_loss + res.A_loss + res.WH_loss ≤ tl := by
  subst hs hres htl
  exact Waterfall.loss_alloc_facts _ dr lgd ms p.notional p.H

/-- Witness for C2 at a concrete configuration. -/
theorem waterfall_loss_cascade_witness :
    (Waterfall.simulate_one_path ⟨1, 1, 0⟩ 1 1 0).total_net_income =
      (Waterfall.wFoldTo (Waterfall.wDerivedOf ⟨1, 1, 0⟩ 0) 1 1).total_income -
        1 * min (1 * (((1 : ℕ) : ℝ) / 12)) 1 * 1 ∧
    (Waterfall.simulate_one_path ⟨1, 1, 0⟩ 1 1 0).C_loss =
      min (Waterfall.wFoldTo (Waterfall.wDerivedOf ⟨1, 1, 0⟩ 0) 1 1).C_bal
        (1 * min (1 * (((1 : ℕ) : ℝ) / 12)) 1 * 1) ∧
    (Waterfall.simulate_one_path ⟨1, 1, 0⟩ 1 1 0).C_loss ≤
      (Waterfall.wFoldTo (Waterfall.wDerivedOf ⟨1, 1, 0⟩ 0) 1 1).C_bal ∧
    (Waterfall.simulate_one_path ⟨1, 1, 0⟩ 1 1 0).B_loss ≤
      (Waterfall.wFoldTo (Waterfall.wDerivedOf ⟨1, 1, 0⟩ 0) 1 1).B_bal ∧
    (Waterfall.simulate_one_path ⟨1, 1, 0⟩ 1 1 0).A_loss ≤
      (Waterfall.wFoldTo (Waterfall.wDerivedOf ⟨1, 1, 0⟩ 0) 1 1).A_bal ∧
    (Waterfall.simulate_one_path ⟨1, 1, 0⟩ 1 1 0).WH_loss ≤
      (Waterfall.wFoldTo (Waterfall.wDerivedOf ⟨1, 1, 0⟩ 0) 1 1).WH_bal ∧
    0 ≤ 1 * min (1 * (((1 : ℕ) : ℝ) / 12)) 1 * 1 -
      (Waterfall.simulate_one_path ⟨1, 1, 0⟩ 1 1 0).C_loss ∧
    0 ≤ 1 * min (1 * (((1 : ℕ) : ℝ) / 12)) 1 * 1 -
      (Waterfall.simulate_one_path ⟨1, 1, 0⟩ 1 1 0).C_loss -
      (Waterfall.simulate_one_path ⟨1, 1, 0⟩ 1 1 0).B_loss ∧
    0 ≤ 1 * min (1 * (((1 : ℕ) : ℝ) / 12)) 1 * 1 -
      (Waterfall.simulate_one_path ⟨1, 1, 0⟩ 1 1 0).C_loss -
      (Waterfall.simulate_one_path ⟨1, 1, 0⟩ 1 1 0).B_loss -
      (Waterfall.simulate_one_path ⟨1, 1, 0⟩ 1 1 0).A_loss ∧
    0 ≤ 1 * min (1 * (((1 : ℕ) : ℝ) / 12)) 1 * 1 -
      (Waterfall.simulate_one_path ⟨1, 1, 0⟩ 1 1 0).C_loss -
      (Waterfall.simulate_one_path ⟨1, 1, 0⟩ 1 1 0).B_loss -
      (Waterfall.simulate_one_path ⟨1, 1, 0⟩ 1 1 0).A_loss -
      (Waterfall.simulate_one_path ⟨1, 1, 0⟩ 1 1 0).WH_loss ∧
    (Waterfall.simulate_one_path ⟨1, 1, 0⟩ 1 1 0).C_loss +
      (Waterfall.simulate_one_path ⟨1, 1, 0⟩ 1 1 0).B_loss +
      (Waterfall.simulate_one_path ⟨1, 1, 0⟩ 1 1 0).A_loss +
      (Waterfall.simulate_one_path ⟨1, 1, 0⟩ 1 1 0).WH_loss ≤
      1 * min (1 * (((1 : ℕ) : ℝ) / 12)) 1 * 1 :=
  waterfall_loss_cascade ⟨1, 1, 0⟩ 1 1 0 _ _ _ rfl rfl rfl

lemma Waterfall.run_aux_congr_w (cfg cfg' : Waterfall.WaterfallCfg)
    (h1 : cfg.risk_engine = cfg'.risk_engine)
    (h2 : Waterfall.read_params cfg = Waterfall.read_params cfg') :
    ∀ n r, Waterfall.run_aux cfg n r = Waterfall.run_aux cfg' n r := by
  intro n
  induction n with
  | zero => intro r; rfl
  | succ n ih =>
    intro r
    simp only [Waterfall.run_aux, Waterfall.sample_params, Waterfall.simulate_one_path_cfg,
      h1, h2]
    cases cfg'.risk_engine with
    | none => rfl
    | some re =>
      cases Waterfall.read_params cfg' with
      | none => rfl
      | some p => simp [ih]

/-- The waterfall orchestrator never reads the `funding` section. -/
lemma Waterfall.run_mc_funding_irrelevant (cfg : Waterfall.WaterfallCfg)
    (f1 f2 : Option Waterfall.FundingConfigW) (r : Rng) :
    Waterfall.run_mc { cfg with funding := f1 } r =
      Waterfall.run_mc { cfg with funding := f2 } r := by
  obtain ⟨sd, sm, pf, re, fu⟩ := cfg
  simp only [Waterfall.run_mc]
  cases sd with
  | none => rfl
  | some s =>
    cases sm with
    | none => rfl
    | some sim =>
      exact Waterfall.run_aux_congr_w ⟨some s, some sim, pf, re, f1⟩
        ⟨some s, some sim, pf, re, f2⟩ rfl rfl sim.N r

/-- Counterexample to claim C7 as stated: a configuration bundle whose
waterfall `FundingConfig` sets every tranche's funding rate to zero, yet
the simulated path's net income reflects the hardcoded 8% warehouse
rate, so the engine's result differs from the spec-modelled simulator
that takes its limits and rates from the `FundingConfig` entries. -/
theorem waterfall_funding_config_cex :
    (Waterfall.simulate_one_path ⟨1, 1200, 0⟩ 0 0 0).total_net_income = -8 ∧
    (Waterfall.simulate_one_path_specFunding
        ⟨⟨0.6, 0⟩, ⟨0.2, 0⟩, ⟨0.1, 0⟩, ⟨0.1, 0⟩⟩ ⟨1, 1200, 0⟩ 0 0 0).total_net_income = 0 ∧
    (Waterfall.simulate_one_path ⟨1, 1200, 0⟩ 0 0 0).total_net_income ≠
      (Waterfall.simulate_one_path_specFunding
        ⟨⟨0.6, 0⟩, ⟨0.2, 0⟩, ⟨0.1, 0⟩, ⟨0.1, 0⟩⟩ ⟨1, 1200, 0⟩ 0 0 0).total_net_income := by
  refine ⟨?_, ?_, ?_⟩ <;>
    norm_num [Waterfall.simulate_one_path, Waterfall.simulate_one_path_specFunding,
      Waterfall.wDerivedOf, Waterfall.wDerivedOfSpec, Waterfall.wFoldTo, Waterfall.wStep,
      Waterfall.wDraws, Waterfall.wAccrue, Waterfall.wRepay, Waterfall.wInit,
      Waterfall.loss_alloc, List.range_succ]

/-- Claim C7 (amended): the waterfall variant ignores the `FundingConfig`
section of the configuration bundle entirely: tranche capacity limits
are hardcoded as the fractions 0.6, 0.2, 0.1 (and residual warehouse) of
the notional and the annual funding rates as 5%, 7%, 10%, 8%; the engine
behaves exactly as the spec-modelled simulator would on the hardcoded
funding configuration, and the orchestrator's output is independent of
whatever `funding` section is supplied. -/
theorem waterfall_funding_hardcoded (p : Waterfall.WParams) (dr lgd ms : ℝ) :
    Waterfall.simulate_one_path p dr lgd ms =
      Waterfall.simulate_one_path_specFunding
        ⟨⟨0.6, 0.05⟩, ⟨0.2, 0.07⟩, ⟨0.1, 0.10⟩, ⟨0.1, 0.08⟩⟩ p dr lgd ms ∧
    (∀ (cfg : Waterfall.WaterfallCfg) (f1 f2 : Option Waterfall.FundingConfigW) (r : Rng),
      Waterfall.run_mc { cfg with funding := f1 } r =
        Waterfall.run_mc { cfg with funding := f2 } r) := by
  constructor
  · have hd : Waterfall.wDerivedOf p ms =
        Waterfall.wDerivedOfSpec ⟨⟨0.6, 0.05⟩, ⟨0.2, 0.07⟩, ⟨0.1, 0.10⟩, ⟨0.1, 0.08⟩⟩ p ms := by
      simp only [Waterfall.wDerivedOf, Waterfall.wDerivedOfSpec, Waterfall.WDerived.mk.injEq]
      norm_num [mul_comm]
    rw [Waterfall.simulate_one_path, Waterfall.simulate_one_path_specFunding, hd]
  · exact Waterfall.run_mc_funding_irrelevant

/-- Claim C8: at every monthly step the principal repayment `notional/H`
is allocated across the four funding balances pro-rata to each balance's
share of the total funding balance (a zero balance receives zero
repayment), and a zero total funding balance is treated as a zero
allocation rather than a division by zero. -/
theorem waterfall_pro_rata_repayment (p : Waterfall.WParams) (ms repay total : ℝ)
    (s s' : Waterfall.WState)
    (hrepay : repay = p.notional / (p.H : ℝ))
    (htotal : total = Waterfall.sumBal s)
    (hs' : s' = Waterfall.wRepay repay s) :
    (Waterfall.wDerivedOf p ms).monthly_principal = repay ∧
    (∀ d t, Waterfall.wStep d s t =
      Waterfall.wRepay d.monthly_principal (Waterfall.wAccrue d (Waterfall.wDraws d s t))) ∧
    (total = 0 → s'.A_bal = s.A_bal ∧ s'.B_bal = s.B_bal ∧ s'.C_bal = s.C_bal ∧
      s'.WH_bal = s.WH_bal ∧ s'.outstanding = s.outstanding - repay) ∧
    (0 < total →
      s'.A_bal = s.A_bal - repay * s.A_bal / total ∧
      s'.B_bal = s.B_bal - repay * s.B_bal / total ∧
      s'.C_bal = s.C_bal - repay * s.C_bal / total ∧
      s'.WH_bal = s.WH_bal - repay * s.WH_bal / total ∧
      s.A_bal - s'.A_bal + (s.B_bal - s'.B_bal) + (s.C_bal - s'.C_bal) +
        (s.WH_bal - s'.WH_bal) = repay ∧
      s'.outstanding = s.outstanding - repay) ∧
    (s.A_bal = 0 → s'.A_bal = 0) ∧ (s.B_bal = 0 → s'.B_bal = 0) ∧
    (s.C_bal = 0 → s'.C_bal = 0) ∧ (s.WH_bal = 0 → s'.WH_bal = 0) := by
  subst htotal hs'
  refine ⟨by rw [hrepay]; rfl, fun d t => rfl, ?_, ?_, ?_, ?_, ?_, ?_⟩
  · intro h0
    have hneg : ¬ 0 < s.A_bal + s.B_bal + s.C_bal + s.WH_bal := by
      rw [Waterfall.sumBal] at h0; rw [h0]; exact lt_irrefl 0
    simp [Waterfall.wRepay, hneg]
  · intro hpos
    rw [Waterfall.sumBal] at hpos
    have hne : s.A_bal + s.B_bal + s.C_bal + s.WH_bal ≠ 0 := ne_of_gt hpos
    simp only [Waterfall.wRepay, if_pos hpos, Waterfall.sumBal, and_true, true_and]
    field_simp
    ring
  · intro hA
    simp only [Waterfall.wRepay]
    split <;> simp [hA]
  · intro hB
    simp only [Waterfall.wRepay]
    split <;> simp [hB]
  · intro hC
    simp only [Waterfall.wRepay]
    split <;> simp [hC]
  · intro hW
    simp only [Waterfall.wRepay]
    split <;> simp [hW]

/-- Witness for C8 at a concrete state with positive total balance. -/
theorem waterfall_pro_rata_repayment_witness :
    (0 : ℝ) < 1 + 1 + 1 + 1 ∧
    (Waterfall.wRepay ((4 : ℝ) / ((2 : ℕ) : ℝ)) ⟨1, 1, 1, 1, 4, 0⟩).A_bal =
      1 - (4 : ℝ) / ((2 : ℕ) : ℝ) * 1 / (1 + 1 + 1 + 1) ∧
    ((1 : ℝ) - (Waterfall.wRepay ((4 : ℝ) / ((2 : ℕ) : ℝ)) ⟨1, 1, 1, 1, 4, 0⟩).A_bal) +
      (1 - (Waterfall.wRepay ((4 : ℝ) / ((2 : ℕ) : ℝ)) ⟨1, 1, 1, 1, 4, 0⟩).B_bal) +
      (1 - (Waterfall.wRepay ((4 : ℝ) / ((2 : ℕ) : ℝ)) ⟨1, 1, 1, 1, 4, 0⟩).C_bal) +
      (1 - (Waterfall.wRepay ((4 : ℝ) / ((2 : ℕ) : ℝ)) ⟨1, 1, 1, 1, 4, 0⟩).WH_bal) =
      (4 : ℝ) / ((2 : ℕ) : ℝ) := by
  have h := waterfall_pro_rata_repayment ⟨2, 4, 0⟩ 0 _ _ ⟨1, 1, 1, 1, 4, 0⟩ _ rfl rfl rfl
  have hpos : (0 : ℝ) < Waterfall.sumBal ⟨1, 1, 1, 1, 4, 0⟩ := by
    simp [Waterfall.sumBal]; norm_num
  have h4 := h.2.2.2.1 hpos
  refine ⟨by norm_num, ?_, ?_⟩
  · simpa [Waterfall.sumBal] using h4.1
  · have := h4.2.2.2.2.1
    simpa [Waterfall.sumBal] using this

lemma Waterfall.wDraws_facts (p : Waterfall.WParams) (ms : ℝ) (s : Waterfall.WState) (t : ℕ)
    (hcons : Waterfall.sumBal s = s.outstanding)
    (hA0 : 0 ≤ s.A_bal) (hB0 : 0 ≤ s.B_bal) (hC0 : 0 ≤ s.C_bal) (hW0 : 0 ≤ s.WH_bal)
    (hA1 : s.A_bal ≤ p.notional * 0.6) (hB1 : s.B_bal ≤ p.notional * 0.2)
    (hC1 : s.C_bal ≤ p.notional * 0.1) :
    Waterfall.sumBal (Waterfall.wDraws (Waterfall.wDerivedOf p ms) s t) =
        (Waterfall.wDraws (Waterfall.wDerivedOf p ms) s t).outstanding ∧
      (Waterfall.wDraws (Waterfall.wDerivedOf p ms) s t).outstanding = s.outstanding ∧
      0 ≤ (Waterfall.wDraws (Waterfall.wDerivedOf p ms) s t).A_bal ∧
      0 ≤ (Waterfall.wDraws (Waterfall.wDerivedOf p ms) s t).B_bal ∧
      0 ≤ (Waterfall.wDraws (Waterfall.wDerivedOf p ms) s t).C_bal ∧
      0 ≤ (Waterfall.wDraws (Waterfall.wDerivedOf p ms) s t).WH_bal ∧
      (Waterfall.wDraws (Waterfall.wDerivedOf p ms) s t).A_bal ≤ p.notional * 0.6 ∧
      (Waterfall.wDraws (Waterfall.wDerivedOf p ms) s t).B_bal ≤ p.notional * 0.2 ∧
      (Waterfall.wDraws (Waterfall.wDerivedOf p ms) s t).C_bal ≤ p.notional * 0.1 := by
  rw [Waterfall.sumBal] at hcons
  by_cases ht : 0 < t
  · simp only [Waterfall.wDraws, if_pos ht, Waterfall.wDerivedOf, Waterfall.sumBal]
    set dA := min (p.notional * 0.6 - s.A_bal)
      (s.outstanding - (s.A_bal + s.B_bal + s.C_bal)) with hdA
    set dB := min (p.notional * 0.2 - s.B_bal)
      (s.outstanding - (s.A_bal + s.B_bal + s.C_bal) - dA) with hdB
    set dC := min (p.notional * 0.1 - s.C_bal)
      (s.outstanding - (s.A_bal + s.B_bal + s.C_bal) - dA - dB) with hdC
    have h1 : 0 ≤ s.outstanding - (s.A_bal + s.B_bal + s.C_bal) := by linarith
    have h2 : dA ≤ s.outstanding - (s.A_bal + s.B_bal + s.C_bal) := min_le_right _ _
    have h2' : dA ≤ p.notional * 0.6 - s.A_bal := min_le_left _ _
    have h3 : 0 ≤ dA := le_min (by linarith) h1
    have h4 : dB ≤ s.outstanding - (s.A_bal + s.B_bal + s.C_bal) - dA := min_le_right _ _
    have h4' : dB ≤ p.notional * 0.2 - s.B_bal := min_le_left _ _
    have h5 : 0 ≤ dB := le_min (by linarith) (by linarith)
    have h6 : dC ≤ s.outstanding - (s.A_bal + s.B_bal + s.C_bal) - dA - dB := min_le_right _ _
    have h6' : dC ≤ p.notional * 0.1 - s.C_bal := min_le_left _ _
    have h7 : 0 ≤ dC := le_min (by linarith) (by linarith)
    have h8 : 0 ≤ s.outstanding - (s.A_bal + dA + (s.B_bal + dB) + (s.C_bal + dC)) := by
      linarith
    have h9 : max (s.outstanding - (s.A_bal + dA + (s.B_bal + dB) + (s.C_bal + dC))) 0 =
        s.outstanding - (s.A_bal + dA + (s.B_bal + dB) + (s.C_bal + dC)) := max_eq_left h8
    rw [h9]
    refine ⟨by ring, trivial, by linarith, by linarith, by linarith, h8, by linarith,
      by linarith, by linarith⟩
  · simp only [Waterfall.wDraws, if_neg ht, Waterfall.sumBal]
    exact ⟨hcons, trivial, hA0, hB0, hC0, hW0, hA1, hB1, hC1⟩

lemma Waterfall.wRepay_inv (mp : ℝ) (s : Waterfall.WState)
    (hA0 : 0 ≤ s.A_bal) (hB0 : 0 ≤ s.B_bal) (hC0 : 0 ≤ s.C_bal) (hW0 : 0 ≤ s.WH_bal)
    (hkey : (0 < s.A_bal + s.B_bal + s.C_bal + s.WH_bal ∧ 0 ≤ mp ∧
        mp ≤ s.A_bal + s.B_bal + s.C_bal + s.WH_bal) ∨
      (s.A_bal + s.B_bal + s.C_bal + s.WH_bal = 0 ∧ mp = 0)) :
    (Waterfall.wRepay mp s).outstanding = s.outstanding - mp ∧
    (Waterfall.wRepay mp s).A_bal + (Waterfall.wRepay mp s).B_bal +
        (Waterfall.wRepay mp s).C_bal + (Waterfall.wRepay mp s).WH_bal =
      s.A_bal + s.B_bal + s.C_bal + s.WH_bal - mp ∧
    0 ≤ (Waterfall.wRepay mp s).A_bal ∧ 0 ≤ (Waterfall.wRepay mp s).B_bal ∧
    0 ≤ (Waterfall.wRepay mp s).C_bal ∧ 0 ≤ (Waterfall.wRepay mp s).WH_bal ∧
    (Waterfall.wRepay mp s).A_bal ≤ s.A_bal ∧ (Waterfall.wRepay mp s).B_bal ≤ s.B_bal ∧
    (Waterfall.wRepay mp s).C_bal ≤ s.C_bal := by
  rcases hkey with ⟨hpos, hmp0, hmple⟩ | ⟨h0, hmp⟩
  · simp only [Waterfall.wRepay, if_pos hpos]
    have hTne : s.A_bal + s.B_bal + s.C_bal + s.WH_bal ≠ 0 := ne_of_gt hpos
    have hdivA : mp * s.A_bal / (s.A_bal + s.B_bal + s.C_bal + s.WH_bal) ≤ s.A_bal := by
      rw [div_le_iff hpos]
      nlinarith [mul_nonneg hA0 (sub_nonneg.mpr hmple)]
    have hdivB : mp * s.B_bal / (s.A_bal + s.B_bal + s.C_bal + s.WH_bal) ≤ s.B_bal := by
      rw [div_le_iff hpos]
      nlinarith [mul_nonneg hB0 (sub_nonneg.mpr hmple)]
    have hdivC : mp * s.C_bal / (s.A_bal + s.B_bal + s.C_bal + s.WH_bal) ≤ s.C_bal := by
      rw [div_le_iff hpos]
      nlinarith [mul_nonneg hC0 (sub_nonneg.mpr hmple)]
    have hdivW : mp * s.WH_bal / (s.A_bal + s.B_bal + s.C_bal + s.WH_bal) ≤ s.WH_bal := by
      rw [div_le_iff hpos]
      nlinarith [mul_nonneg hW0 (sub_nonneg.mpr hmple)]
    have hA0' : 0 ≤ mp * s.A_bal / (s.A_bal + s.B_bal + s.C_bal + s.WH_bal) :=
      div_nonneg (mul_nonneg hmp0 hA0) hpos.le
    have hB0' : 0 ≤ mp * s.B_bal / (s.A_bal + s.B_bal + s.C_bal + s.WH_bal) :=
      div_nonneg (mul_nonneg hmp0 hB0) hpos.le
    have hC0' : 0 ≤ mp * s.C_bal / (s.A_bal + s.B_bal + s.C_bal + s.WH_bal) :=
      div_nonneg (mul_nonneg hmp0 hC0) hpos.le
    have hW0' : 0 ≤ mp * s.WH_bal / (s.A_bal + s.B_bal + s.C_bal + s.WH_bal) :=
      div_nonneg (mul_nonneg hmp0 hW0) hpos.le
    refine ⟨trivial, ?_, by linarith, by linarith, by linarith, by linarith,
      by linarith, by linarith, by linarith⟩
    field_simp
    ring
  · have hneg : ¬ 0 < s.A_bal + s.B_bal + s.C_bal + s.WH_bal := by
      rw [h0]; exact lt_irrefl 0
    simp only [Waterfall.wRepay, if_neg hneg]
    exact ⟨trivial, by rw [hmp]; ring, hA0, hB0, hC0, hW0, le_refl _, le_refl _, le_refl _⟩

/-- The inductive invariant of the waterfall monthly loop: conservation,
non-negative balances, hardcoded tranche limits, and the linear
amortization schedule of `outstanding`. -/
lemma Waterfall.wFoldTo_inv (p : Waterfall.WParams) (ms : ℝ)
    (hN : 0 ≤ p.notional) (hH : 1 ≤ p.H) :
    ∀ t, t ≤ p.H →
      Waterfall.sumBal (Waterfall.wFoldTo (Waterfall.wDerivedOf p ms) p.notional t) =
          (Waterfall.wFoldTo (Waterfall.wDerivedOf p ms) p.notional t).outstanding ∧
      0 ≤ (Waterfall.wFoldTo (Waterfall.wDerivedOf p ms) p.notional t).A_bal ∧
      0 ≤ (Waterfall.wFoldTo (Waterfall.wDerivedOf p ms) p.notional t).B_bal ∧
      0 ≤ (Waterfall.wFoldTo (Waterfall.wDerivedOf p ms) p.notional t).C_bal ∧
      0 ≤ (Waterfall.wFoldTo (Waterfall.wDerivedOf p ms) p.notional t).WH_bal ∧
      (Waterfall.wFoldTo (Waterfall.wDerivedOf p ms) p.notional t).A_bal ≤
        p.notional * 0.6 ∧
      (Waterfall.wFoldTo (Waterfall.wDerivedOf p ms) p.notional t).B_bal ≤
        p.notional * 0.2 ∧
      (Waterfall.wFoldTo (Waterfall.wDerivedOf p ms) p.notional t).C_bal ≤
        p.notional * 0.1 ∧
      (Waterfall.wFoldTo (Waterfall.wDerivedOf p ms) p.notional t).outstanding =
        p.notional * (1 - (t : ℝ) / (p.H : ℝ)) := by
  have hH0 : (0 : ℝ) < (p.H : ℝ) := by exact_mod_cast Nat.lt_of_lt_of_le Nat.zero_lt_one hH
  intro t
  induction t with
  | zero =>
    intro _
    refine ⟨?_, le_refl _, le_refl _, le_refl _, hN, ?_, ?_, ?_, ?_⟩
    · simp [Waterfall.wFoldTo, Waterfall.wInit, Waterfall.sumBal]
    · simpa [Waterfall.wFoldTo, Waterfall.wInit] using mul_nonneg hN (by norm_num)
    · simpa [Waterfall.wFoldTo, Waterfall.wInit] using mul_nonneg hN (by norm_num)
    · simpa [Waterfall.wFoldTo, Waterfall.wInit] using mul_nonneg hN (by norm_num)
    · simp [Waterfall.wFoldTo, Waterfall.wInit]
  | succ t ih =>
    intro ht1
    have htH : t < p.H := Nat.lt_of_succ_le ht1
    obtain ⟨hcons, hA0, hB0, hC0, hW0, hA1, hB1, hC1, hout⟩ := ih (le_of_lt htH)
    have hd := Waterfall.wDraws_facts p ms
      (Waterfall.wFoldTo (Waterfall.wDerivedOf p ms) p.notional t) t
      hcons hA0 hB0 hC0 hW0 hA1 hB1 hC1
    obtain ⟨d_cons, d_out, d_A0, d_B0, d_C0, d_W0, d_A1, d_B1, d_C1⟩ := hd
    rw [Waterfall.wFoldTo_succ, Waterfall.wStep]
    set s1 := Waterfall.wDraws (Waterfall.wDerivedOf p ms)
      (Waterfall.wFoldTo (Waterfall.wDerivedOf p ms) p.notional t) t with hs1
    have hacc : Waterfall.wAccrue (Waterfall.wDerivedOf p ms) s1 =
        { s1 with total_income := s1.total_income +
          (s1.outstanding * (Waterfall.wDerivedOf p ms).coupon_m -
            (s1.A_bal * (Waterfall.wDerivedOf p ms).A_rate +
              s1.B_bal * (Waterfall.wDerivedOf p ms).B_rate +
              s1.C_bal * (Waterfall.wDerivedOf p ms).C_rate +
              s1.WH_bal * (Waterfall.wDerivedOf p ms).WH_rate)) } := rfl
    have hsum1 : s1.A_bal + s1.B_bal + s1.C_bal + s1.WH_bal =
        p.notional * (1 - (t : ℝ) / (p.H : ℝ)) := by
      have := d_cons
      rw [Waterfall.sumBal] at this
      rw [this, d_out, hout]
    have htr : ((t : ℝ)) ≤ (p.H : ℝ) - 1 := by
      have : (t : ℝ) + 1 ≤ (p.H : ℝ) := by exact_mod_cast ht1
      linarith
    have hmp : (Waterfall.wDerivedOf p ms).monthly_principal = p.notional / (p.H : ℝ) := rfl
    have hkey : (0 < s1.A_bal + s1.B_bal + s1.C_bal + s1.WH_bal ∧
        0 ≤ (Waterfall.wDerivedOf p ms).monthly_principal ∧
        (Waterfall.wDerivedOf p ms).monthly_principal ≤
          s1.A_bal + s1.B_bal + s1.C_bal + s1.WH_bal) ∨
        (s1.A_bal + s1.B_bal + s1.C_bal + s1.WH_bal = 0 ∧
          (Waterfall.wDerivedOf p ms).monthly_principal = 0) := by
      by_cases hTpos : 0 < s1.A_bal + s1.B_bal + s1.C_bal + s1.WH_bal
      · left
        refine ⟨hTpos, by rw [hmp]; exact div_nonneg hN hH0.le, ?_⟩
        rw [hmp, hsum1, div_le_iff hH0]
        have hexp : p.notional * (1 - (t : ℝ) / (p.H : ℝ)) * (p.H : ℝ) =
            p.notional * ((p.H : ℝ) - (t : ℝ)) := by
          field_simp
        rw [hexp]
        nlinarith [mul_nonneg hN (show (0 : ℝ) ≤ (p.H : ℝ) - (t : ℝ) - 1 by linarith)]
      · right
        have hfrac : 0 < 1 - (t : ℝ) / (p.H : ℝ) := by
          have : (t : ℝ) / (p.H : ℝ) < 1 := by
            rw [div_lt_one hH0]; linarith
          linarith
        have hT0 : s1.A_bal + s1.B_bal + s1.C_bal + s1.WH_bal = 0 := by
          have hge : 0 ≤ s1.A_bal + s1.B_bal + s1.C_bal + s1.WH_bal := by
            rw [hsum1]; exact mul_nonneg hN hfrac.le
          cases lt_or_eq_of_le hge with
          | inl h => exact absurd h hTpos
          | inr h => exact h.symm
        have hN0 : p.notional = 0 := by
          have := hT0
          rw [hsum1] at this
          rcases mul_eq_zero.mp this with h | h
          · exact h
          · exact absurd h (ne_of_gt hfrac)
        exact ⟨hT0, by rw [hmp, hN0, zero_div]⟩
    have haccA : (Waterfall.wAccrue (Waterfall.wDerivedOf p ms) s1).A_bal = s1.A_bal := rfl
    have haccB : (Waterfall.wAccrue (Waterfall.wDerivedOf p ms) s1).B_bal = s1.B_bal := rfl
    have haccC : (Waterfall.wAccrue (Waterfall.wDerivedOf p ms) s1).C_bal = s1.C_bal := rfl
    have haccW : (Waterfall.wAccrue (Waterfall.wDerivedOf p ms) s1).WH_bal = s1.WH_bal := rfl
    have haccO : (Waterfall.wAccrue (Waterfall.wDerivedOf p ms) s1).outstanding =
      s1.outstanding := rfl
    have hr := Waterfall.wRepay_inv (Waterfall.wDerivedOf p ms).monthly_principal
      (Waterfall.wAccrue (Waterfall.wDerivedOf p ms) s1)
      (by rw [haccA]; exact d_A0) (by rw [haccB]; exact d_B0)
      (by rw [haccC]; exact d_C0) (by rw [haccW]; exact d_W0)
      (by rw [haccA, haccB, haccC, haccW]; exact hkey)
    obtain ⟨r_out, r_sum, r_A0, r_B0, r_C0, r_W0, r_A1, r_B1, r_C1⟩ := hr
    rw [haccA] at r_A1
    rw [haccB] at r_B1
    rw [haccC] at r_C1
    rw [haccO] at r_out
    rw [haccA, haccB, haccC, haccW] at r_sum
    have hout' : (Waterfall.wRepay (Waterfall.wDerivedOf p ms).monthly_principal
        (Waterfall.wAccrue (Waterfall.wDerivedOf p ms) s1)).outstanding =
        p.notional * (1 - ((t + 1 : ℕ) : ℝ) / (p.H : ℝ)) := by
      rw [r_out, d_out, hout, hmp]
      push_cast
      field_simp
      ring
    refine ⟨?_, r_A0, r_B0, r_C0, r_W0, by linarith, by linarith, by linarith, hout'⟩
    rw [Waterfall.sumBal, r_sum, hout', hsum1, hmp]
    push_cast
    field_simp
    ring

/-- Claim C5: in the waterfall variant, at every one of the H monthly
steps — after the funding draws and after the pro-rata repayment, before
the terminal loss allocation — the four funding balances sum exactly to
the outstanding principal. -/
theorem waterfall_conservation (p : Waterfall.WParams) (ms : ℝ) (t : ℕ)
    (s s1 s' : Waterfall.WState)
    (hN : 0 ≤ p.notional) (hH : 1 ≤ p.H) (ht : t < p.H)
    (hs : s = Waterfall.wFoldTo (Waterfall.wDerivedOf p ms) p.notional t)
    (hs1 : s1 = Waterfall.wDraws (Waterfall.wDerivedOf p ms) s t)
    (hs' : s' = Waterfall.wFoldTo (Waterfall.wDerivedOf p ms) p.notional (t + 1)) :
    Waterfall.sumBal s1 = s1.outstanding ∧ Waterfall.sumBal s' = s'.outstanding := by
  subst hs hs1 hs'
  obtain ⟨hcons, hA0, hB0, hC0, hW0, hA1, hB1, hC1, _⟩ :=
    Waterfall.wFoldTo_inv p ms hN hH t (le_of_lt ht)
  refine ⟨(Waterfall.wDraws_facts p ms _ t hcons hA0 hB0 hC0 hW0 hA1 hB1 hC1).1, ?_⟩
  exact (Waterfall.wFoldTo_inv p ms hN hH (t + 1) ht).1

/-- Witness for C5 at a concrete configuration (notional 1, horizon 1,
month 0). -/
theorem waterfall_conservation_witness :
    Waterfall.sumBal (Waterfall.wDraws (Waterfall.wDerivedOf ⟨1, 1, 0⟩ 0)
        (Waterfall.wFoldTo (Waterfall.wDerivedOf ⟨1, 1, 0⟩ 0) 1 0) 0) =
      (Waterfall.wDraws (Waterfall.wDerivedOf ⟨1, 1, 0⟩ 0)
        (Waterfall.wFoldTo (Waterfall.wDerivedOf ⟨1, 1, 0⟩ 0) 1 0) 0).outstanding ∧
    Waterfall.sumBal (Waterfall.wFoldTo (Waterfall.wDerivedOf ⟨1, 1, 0⟩ 0) 1 (0 + 1)) =
      (Waterfall.wFoldTo (Waterfall.wDerivedOf ⟨1, 1, 0⟩ 0) 1 (0 + 1)).outstanding :=
  waterfall_conservation ⟨1, 1, 0⟩ 0 0 _ _ _ (by norm_num) (by norm_num) (by norm_num)
    rfl rfl rfl

/-- Claim C4: the regime variant converts the annual default rate to a
term default probability by compounding,
`p_default_term = 1 - (1 - default_rate) ^ (H/12)` (clipped to `[0,1]`),
not by linear scaling; for `default_rate = 0.02` and `H = 36` the
computed value is `1 - 0.98³ = 0.058808`, not `0.06`. -/
theorem term_default_probability_compounding :
    (∀ (dr : ℝ) (H : ℕ), 0 ≤ dr → dr ≤ 1 →
      Regime.p_default_term dr H = clip (1 - (1 - dr) ^ ((H : ℝ) / 12)) 0 1) ∧
    Regime.p_default_term (2 / 100) 36 = 7351 / 125000 ∧
    Regime.p_default_term (2 / 100) 36 ≠ 2 / 100 * (((36 : ℕ) : ℝ) / 12) := by
  have hgen : ∀ (dr : ℝ) (H : ℕ), 0 ≤ dr → dr ≤ 1 →
      Regime.p_default_term dr H = clip (1 - (1 - dr) ^ ((H : ℝ) / 12)) 0 1 := by
    intro dr H h0 h1
    rw [Regime.p_default_term]
    have : clip dr 0 1 = dr := by
      rw [clip, max_eq_left h0, min_eq_left h1]
    rw [this]
  have hval : Regime.p_default_term (2 / 100) 36 = 7351 / 125000 := by
    rw [hgen (2 / 100) 36 (by norm_num) (by norm_num)]
    have hcast : ((36 : ℕ) : ℝ) / 12 = ((3 : ℕ) : ℝ) := by norm_num
    rw [hcast, Real.rpow_natCast]
    rw [clip]
    norm_num
  refine ⟨hgen, hval, ?_⟩
  rw [hval]
  norm_num

/-- Witness for C4's general compounding formula at a concrete rate. -/
theorem term_default_probability_compounding_witness :
    (0 : ℝ) ≤ 1 / 2 ∧ (1 / 2 : ℝ) ≤ 1 ∧
    Regime.p_default_term (1 / 2) 24 = clip (1 - (1 - 1 / 2) ^ (((24 : ℕ) : ℝ) / 12)) 0 1 :=
  ⟨by norm_num, by norm_num,
    term_default_probability_compounding.1 (1 / 2) 24 (by norm_num) (by norm_num)⟩

lemma Regime.refi_block_eq (p : Regime.RParams) (Z liq0 : ℝ) (r : Rng) :
    Regime.refi_block p Z liq0 r =
      (if r.vals (r.pos + 1) < clip (p.base_fail + p.fail_sens * max (-Z) 0) 0 0.995 then
        p.notional *
          clip (p.base_haircut + p.hair_sens * max (-Z) 0 + p.hair_noise * r.vals r.pos)
            p.hair_min p.hair_max
      else liq0, ⟨r.vals, r.pos + 2⟩) := by
  rw [Regime.refi_block]
  simp only [Rng.next]
  have h2 : r.pos + 1 + 1 = r.pos + 2 := by omega
  rw [h2]
  split
  · rw [Prod.mk.injEq]
    exact ⟨by ring, rfl⟩
  · rfl

lemma Regime.freezeSteps_rng (p : Regime.RParams) (n : ℕ) :
    ∀ (f : Bool) (r : Rng), (Regime.freezeSteps p n f r).2 = ⟨r.vals, r.pos + n⟩ := by
  induction n with
  | zero => intro f r; rfl
  | succ n ih =>
    intro f r
    rw [Regime.freezeSteps, ih]
    simp only [Rng.next]
    rw [Rng.mk.injEq]
    exact ⟨rfl, by omega⟩

lemma Regime.freezeSteps_succ (p : Regime.RParams) (n : ℕ) :
    ∀ (f : Bool) (r : Rng),
      Regime.freezeSteps p (n + 1) f r =
        (if (Regime.freezeSteps p n f r).1 then
           decide ((Regime.freezeSteps p n f r).2.next.1 < p.p_freeze_persist)
         else decide ((Regime.freezeSteps p n f r).2.next.1 < p.p_freeze_start),
         (Regime.freezeSteps p n f r).2.next.2) := by
  induction n with
  | zero => intro f r; rfl
  | succ n ih =>
    intro f r
    rw [show Regime.freezeSteps p (n + 1 + 1) f r =
        Regime.freezeSteps p (n + 1)
          (if f then decide (r.next.1 < p.p_freeze_persist)
           else decide (r.next.1 < p.p_freeze_start)) r.next.2 from rfl]
    rw [ih]
    rfl

lemma Regime.rStep_plain (p : Regime.RParams) (Z lgd cm pdt : ℝ) (s : Regime.RState)
    (t : ℕ) (ht : t ≠ p.H - 1) :
    Regime.rStep p Z lgd cm pdt s t =
      { total_income := s.total_income + s.outstanding * cm
        credit_loss := s.credit_loss
        liquidity_loss := s.liquidity_loss
        in_freeze := if s.in_freeze then decide (s.rng.next.1 < p.p_freeze_persist)
          else decide (s.rng.next.1 < p.p_freeze_start)
        outstanding := s.outstanding
        rng := s.rng.next.2 } := by
  simp only [Regime.rStep, if_neg ht]

/-- The first `m` iterations of the regime loop, `m` short of the
terminal month: income accrues on a constant outstanding, no losses are
recorded, the freeze chain advances `m` Markov transitions, and the
random source advances by exactly `m` uniform draws. -/
lemma Regime.rFold_upto (p : Regime.RParams) (Z lgd cm pdt notional : ℝ) (r : Rng) :
    ∀ (m : ℕ), (∀ t, t < m → t ≠ p.H - 1) →
      (List.range m).foldl (Regime.rStep p Z lgd cm pdt) (Regime.rInit notional r) =
        { total_income := (m : ℝ) * (notional * cm)
          credit_loss := 0
          liquidity_loss := 0
          in_freeze := (Regime.freezeSteps p m false r).1
          outstanding := notional
          rng := ⟨r.vals, r.pos + m⟩ } := by
  intro m
  induction m with
  | zero =>
    intro _
    simp only [List.range_zero, List.foldl_nil, Regime.rInit, Regime.freezeSteps,
      Regime.RState.mk.injEq]
    refine ⟨by norm_num, trivial, trivial, trivial, trivial, ?_⟩
    rw [Rng.mk.injEq]
    exact ⟨rfl, by omega⟩
  | succ m ih =>
    intro hm
    have hmm : m ≠ p.H - 1 := hm m (Nat.lt_succ_self m)
    rw [List.range_succ, List.foldl_append, List.foldl_cons, List.foldl_nil]
    rw [ih (fun t ht => hm t (Nat.lt_succ_of_lt ht))]
    rw [Regime.rStep_plain p Z lgd cm pdt _ m hmm]
    rw [Regime.freezeSteps_succ, Regime.freezeSteps_rng]
    simp only [Rng.next, Regime.RState.mk.injEq]
    refine ⟨by push_cast; ring, trivial, trivial, trivial, trivial, ?_⟩
    rw [Rng.mk.injEq]
    exact ⟨rfl, by omega⟩

/-- Splitting the regime loop at the terminal month. -/
lemma Regime.rFold_eq (p : Regime.RParams) (hH : 1 ≤ p.H) (Z dr lgd ms : ℝ) (r : Rng) :
    Regime.rFold p Z dr lgd ms r =
      Regime.rStep p Z lgd ((p.annual_coupon_rate + ms) / 12)
        (Regime.p_default_term dr p.H)
        { total_income := ((p.H - 1 : ℕ) : ℝ) *
            (p.notional * ((p.annual_coupon_rate + ms) / 12))
          credit_loss := 0
          liquidity_loss := 0
          in_freeze := (Regime.freezeSteps p (p.H - 1) false r).1
          outstanding := p.notional
          rng := ⟨r.vals, r.pos + (p.H - 1)⟩ }
        (p.H - 1) := by
  simp only [Regime.rFold]
  rw [show List.range p.H = List.range ((p.H - 1) + 1) from by
    congr 1
    omega]
  rw [List.range_succ, List.foldl_append, List.foldl_cons, List.foldl_nil]
  rw [Regime.rFold_upto p Z lgd _ _ p.notional r (p.H - 1) (fun t ht => Nat.ne_of_lt ht)]

/-- The terminal iteration of the regime loop: the final freeze flag is
`terminalFreeze`, and the liquidity loss and final random-source state
come from the freeze-gated refinance block, applied to the source after
`H - 1 + 2` draws (the `H`-th freeze draw and the terminal default
draw). -/
lemma Regime.rFold_terminal (p : Regime.RParams) (hH : 1 ≤ p.H) (Z dr lgd ms : ℝ)
    (r : Rng) :
    (Regime.rFold p Z dr lgd ms r).in_freeze = Regime.terminalFreeze p r ∧
    (Regime.rFold p Z dr lgd ms r).liquidity_loss =
      (if Regime.terminalFreeze p r then
        Regime.refi_block p Z 0 ⟨r.vals, r.pos + (p.H - 1) + 2⟩
      else ((0 : ℝ), (⟨r.vals, r.pos + (p.H - 1) + 2⟩ : Rng))).1 ∧
    (Regime.rFold p Z dr lgd ms r).rng =
      (if Regime.terminalFreeze p r then
        Regime.refi_block p Z 0 ⟨r.vals, r.pos + (p.H - 1) + 2⟩
      else ((0 : ℝ), (⟨r.vals, r.pos + (p.H - 1) + 2⟩ : Rng))).2 := by
  rw [Regime.rFold_eq p hH Z dr lgd ms r]
  simp only [Regime.rStep, Rng.next, if_pos rfl, Regime.terminalFreeze]
  have h12 : r.pos + (p.H - 1) + 1 + 1 = r.pos + (p.H - 1) + 2 := by omega
  rw [h12]
  exact ⟨rfl, rfl, rfl⟩

/-- Counterexample to claim C3 as stated: a freeze-state terminal month
on which the refinance-failure Bernoulli draw does NOT come first — the
engine consumes the haircut's normal draw (value 0.9 at position 0)
before the Bernoulli uniform draw (value 0 at position 1), so it reports
a refinance failure with haircut 0.39, whereas the spec-ordered block
(Bernoulli first, haircut only on failure) would read the Bernoulli draw
at position 0, see no failure, and consume only one draw. -/
theorem refinance_draw_order_cex :
    (Regime.refi_block ⟨1, 1, 0, 1, 1, 1/2, 0, 3/10, 0, 1/10, 1/10, 7/10⟩ 0 0
        ⟨fun n => if n = 0 then 9/10 else 0, 0⟩).1 = 39/100 ∧
    (Regime.refi_block_specOrder ⟨1, 1, 0, 1, 1, 1/2, 0, 3/10, 0, 1/10, 1/10, 7/10⟩ 0 0
        ⟨fun n => if n = 0 then 9/10 else 0, 0⟩).1 = 0 ∧
    (Regime.refi_block ⟨1, 1, 0, 1, 1, 1/2, 0, 3/10, 0, 1/10, 1/10, 7/10⟩ 0 0
        ⟨fun n => if n = 0 then 9/10 else 0, 0⟩).2.pos = 2 ∧
    (Regime.refi_block_specOrder ⟨1, 1, 0, 1, 1, 1/2, 0, 3/10, 0, 1/10, 1/10, 7/10⟩ 0 0
        ⟨fun n => if n = 0 then 9/10 else 0, 0⟩).2.pos = 1 := by
  refine ⟨?_, ?_, ?_, ?_⟩ <;>
    norm_num [Regime.refi_block, Regime.refi_block_specOrder, Rng.next, clip]

/-- Claim C3 (amended): in the regime-switching variant, when the
terminal month is in the freeze state, `p_fail = clip(base_fail +
fail_sensitivity * max(-Z, 0), 0, 0.995)` is computed and the stressed
noisy haircut `clip(base_haircut + haircut_sensitivity * max(-Z,0) +
haircut_noise * N(0,1), haircut_min, haircut_max)` is computed first,
unconditionally consuming one normal draw; the Bernoulli
refinance-failure draw is taken afterwards, and only on failure is
`liquidity_loss` set to `notional × haircut` (two draws are consumed
whether or not the refinance fails). -/
theorem refinance_block_haircut_first (p : Regime.RParams) (Z liq0 : ℝ) (r : Rng) :
    Regime.refi_block p Z liq0 r =
      (if r.vals (r.pos + 1) < clip (p.base_fail + p.fail_sens * max (-Z) 0) 0 0.995 then
        p.notional *
          clip (p.base_haircut + p.hair_sens * max (-Z) 0 + p.hair_noise * r.vals r.pos)
            p.hair_min p.hair_max
      else liq0, ⟨r.vals, r.pos + 2⟩) :=
  Regime.refi_block_eq p Z liq0 r

lemma Regime.sample_params_vals_rng (re : RiskEngineCfg) (Z : ℝ) (r : Rng) :
    (Regime.sample_params_vals re Z r).2 = ⟨r.vals, r.pos + 3⟩ := by
  simp only [Regime.sample_params_vals, Rng.next]

/-- Claim C9: in the regime variant, `liquidity_loss > 0` implies the
freeze state was active at the terminal month and the refinance-failure
Bernoulli draw succeeded (its uniform draw, the last one consumed, fell
below `p_fail`); and `liquidity_loss = 0` whenever the path is not in
the freeze state at maturity. -/
theorem regime_freeze_gating (p : Regime.RParams) (Z dr lgd ms : ℝ) (r : Rng)
    (s : Regime.RState) (hH : 1 ≤ p.H) (hs : s = Regime.rFold p Z dr lgd ms r) :
    (s.in_freeze = false → s.liquidity_loss = 0) ∧
    (0 < s.liquidity_loss →
      s.in_freeze = true ∧
      r.vals (s.rng.pos - 1) <
        clip (p.base_fail + p.fail_sens * max (-Z) 0) 0 0.995) := by
  subst hs
  obtain ⟨hf, hliq, hrng⟩ := Regime.rFold_terminal p hH Z dr lgd ms r
  cases hft : Regime.terminalFreeze p r with
  | false =>
    rw [hft] at hf hliq hrng
    simp only [Bool.false_eq_true, if_false] at hliq hrng
    constructor
    · intro _
      exact hliq
    · intro hpos
      rw [hliq] at hpos
      exact absurd hpos (lt_irrefl 0)
  | true =>
    rw [hft] at hf hliq hrng
    simp only [if_true] at hliq hrng
    rw [Regime.refi_block_eq] at hliq hrng
    dsimp only at hliq hrng
    constructor
    · intro hfalse
      rw [hf] at hfalse
      cases hfalse
    · intro hpos
      refine ⟨hf, ?_⟩
      rw [hliq] at hpos
      by_cases hcond : r.vals (r.pos + (p.H - 1) + 2 + 1) <
          clip (p.base_fail + p.fail_sens * max (-Z) 0) 0 0.995
      · rw [hrng]
        dsimp only
        rw [show r.pos + (p.H - 1) + 2 + 2 - 1 = r.pos + (p.H - 1) + 2 + 1 from by omega]
        exact hcond
      · rw [if_neg hcond] at hpos
        exact absurd hpos (lt_irrefl 0)

/-- Witness for C9 at a concrete configuration (H = 1, constant-zero
draw stream). -/
theorem regime_freeze_gating_witness :
    ((Regime.rFold ⟨1, 1, 0, 1, 1, 1/2, 0, 3/10, 0, 1/10, 1/10, 7/10⟩ 0 0 0 0
        ⟨fun _ => 0, 0⟩).in_freeze = false →
      (Regime.rFold ⟨1, 1, 0, 1, 1, 1/2, 0, 3/10, 0, 1/10, 1/10, 7/10⟩ 0 0 0 0
        ⟨fun _ => 0, 0⟩).liquidity_loss = 0) ∧
    (0 < (Regime.rFold ⟨1, 1, 0, 1, 1, 1/2, 0, 3/10, 0, 1/10, 1/10, 7/10⟩ 0 0 0 0
        ⟨fun _ => 0, 0⟩).liquidity_loss →
      (Regime.rFold ⟨1, 1, 0, 1, 1, 1/2, 0, 3/10, 0, 1/10, 1/10, 7/10⟩ 0 0 0 0
        ⟨fun _ => 0, 0⟩).in_freeze = true ∧
      (0 : ℝ) < clip (1/2 + 0 * max (-0) 0) 0 0.995) :=
  regime_freeze_gating _ _ _ _ _ _ _ (by norm_num) rfl

/-- Claim C10: in the regime variant the number of draws consumed per
path is not constant: every path consumes 4 normal draws in the sampler
(the random source is 4 positions further when the sampler returns),
plus H uniform freeze draws plus 1 uniform terminal-default draw, and
exactly 2 additional draws if and only if the path is in the freeze
state at the terminal month — so the total advance is `4 + H + 1 + 2`
under terminal freeze and `4 + H + 1` otherwise, and under the single
shared sequential source the draw positions of later paths depend on
earlier paths' freeze outcomes. -/
theorem regime_draw_count (re : RiskEngineCfg) (p : Regime.RParams) (Z dr lgd ms : ℝ)
    (r r1 r4 : Rng) (s : Regime.RState) (hH : 1 ≤ p.H)
    (hZ : Z = (Regime.sample_systemic r).1)
    (hr1 : r1 = (Regime.sample_systemic r).2)
    (hdlm : ((dr, lgd, ms), r4) = Regime.sample_params_vals re Z r1)
    (hs : s = Regime.rFold p Z dr lgd ms r4) :
    r4.pos = r.pos + 4 ∧
    (Regime.rPath re p r).2 = s.rng ∧
    (s.in_freeze = true → s.rng.pos = r.pos + 4 + p.H + 1 + 2) ∧
    (s.in_freeze = false → s.rng.pos = r.pos + 4 + p.H + 1) := by
  subst hZ hr1 hs
  have hdr := congrArg (fun x => x.1.1) hdlm
  have hlgd := congrArg (fun x => x.1.2.1) hdlm
  have hms := congrArg (fun x => x.1.2.2) hdlm
  have hr4 := congrArg (fun x => x.2) hdlm
  dsimp only at hdr hlgd hms hr4
  have hr4p : r4.pos = r.pos + 4 := by
    rw [hr4, Regime.sample_params_vals_rng]
    show r.pos + 1 + 3 = r.pos + 4
    omega
  obtain ⟨hf, hliq, hrng⟩ :=
    Regime.rFold_terminal p hH (Regime.sample_systemic r).1 dr lgd ms r4
  refine ⟨hr4p, ?_, ?_, ?_⟩
  · simp only [Regime.rPath]
    rw [← hdr, ← hlgd, ← hms, ← hr4]
    rfl
  · intro htrue
    rw [hf] at htrue
    rw [hrng, htrue]
    simp only [if_true]
    rw [Regime.refi_block_eq]
    dsimp only
    omega
  · intro hfalse
    rw [hf] at hfalse
    rw [hrng, hfalse]
    simp only [Bool.false_eq_true, if_false]
    omega

/-- Witness for C10 at a concrete configuration (H = 1, constant-zero
draw stream, fully correlated drivers). -/
theorem regime_draw_count_witness :
    (Regime.sample_params_vals ⟨1, 1, 1, ⟨0, 0, 0, 0⟩, ⟨0, 0, 0, 0⟩, ⟨0, 0, 0, 0⟩⟩
        (Regime.sample_systemic ⟨fun _ => 0, 0⟩).1
        (Regime.sample_systemic ⟨fun _ => 0, 0⟩).2).2.pos =
      (⟨fun _ => 0, 0⟩ : Rng).pos + 4 ∧
    (Regime.rPath ⟨1, 1, 1, ⟨0, 0, 0, 0⟩, ⟨0, 0, 0, 0⟩, ⟨0, 0, 0, 0⟩⟩
        ⟨1, 1, 0, 1, 1, 1/2, 0, 3/10, 0, 1/10, 1/10, 7/10⟩ ⟨fun _ => 0, 0⟩).2 =
      (Regime.rFold ⟨1, 1, 0, 1, 1, 1/2, 0, 3/10, 0, 1/10, 1/10, 7/10⟩
        (Regime.sample_systemic ⟨fun _ => 0, 0⟩).1
        (Regime.sample_params_vals ⟨1, 1, 1, ⟨0, 0, 0, 0⟩, ⟨0, 0, 0, 0⟩, ⟨0, 0, 0, 0⟩⟩
          (Regime.sample_systemic ⟨fun _ => 0, 0⟩).1
          (Regime.sample_systemic ⟨fun _ => 0, 0⟩).2).1.1
        (Regime.sample_params_vals ⟨1, 1, 1, ⟨0, 0, 0, 0⟩, ⟨0, 0, 0, 0⟩, ⟨0, 0, 0, 0⟩⟩
          (Regime.sample_systemic ⟨fun _ => 0, 0⟩).1
          (Regime.sample_systemic ⟨fun _ => 0, 0⟩).2).1.2.1
        (Regime.sample_params_vals ⟨1, 1, 1, ⟨0, 0, 0, 0⟩, ⟨0, 0, 0, 0⟩, ⟨0, 0, 0, 0⟩⟩
          (Regime.sample_systemic ⟨fun _ => 0, 0⟩).1
          (Regime.sample_systemic ⟨fun _ => 0, 0⟩).2).1.2.2
        (Regime.sample_params_vals ⟨1, 1, 1, ⟨0, 0, 0, 0⟩, ⟨0, 0, 0, 0⟩, ⟨0, 0, 0, 0⟩⟩
          (Regime.sample_systemic ⟨fun _ => 0, 0⟩).1
          (Regime.sample_systemic ⟨fun _ => 0, 0⟩).2).2).rng ∧
    ((Regime.rFold ⟨1, 1, 0, 1, 1, 1/2, 0, 3/10, 0, 1/10, 1/10, 7/10⟩
        (Regime.sample_systemic ⟨fun _ => 0, 0⟩).1
        (Regime.sample_params_vals ⟨1, 1, 1, ⟨0, 0, 0, 0⟩, ⟨0, 0, 0, 0⟩, ⟨0, 0, 0, 0⟩⟩
          (Regime.sample_systemic ⟨fun _ => 0, 0⟩).1
          (Regime.sample_systemic ⟨fun _ => 0, 0⟩).2).1.1
        (Regime.sample_params_vals ⟨1, 1, 1, ⟨0, 0, 0, 0⟩, ⟨0, 0, 0, 0⟩, ⟨0, 0, 0, 0⟩⟩
          (Regime.sample_systemic ⟨fun _ => 0, 0⟩).1
          (Regime.sample_systemic ⟨fun _ => 0, 0⟩).2).1.2.1
        (Regime.sample_params_vals ⟨1, 1, 1, ⟨0, 0, 0, 0⟩, ⟨0, 0, 0, 0⟩, ⟨0, 0, 0, 0⟩⟩
          (Regime.sample_systemic ⟨fun _ => 0, 0⟩).1
          (Regime.sample_systemic ⟨fun _ => 0, 0⟩).2).1.2.2
        (Regime.sample_params_vals ⟨1, 1, 1, ⟨0, 0, 0, 0⟩, ⟨0, 0, 0, 0⟩, ⟨0, 0, 0, 0⟩⟩
          (Regime.sample_systemic ⟨fun _ => 0, 0⟩).1
          (Regime.sample_systemic ⟨fun _ => 0, 0⟩).2).2).in_freeze = true →
      (Regime.rFold ⟨1, 1, 0, 1, 1, 1/2, 0, 3/10, 0, 1/10, 1/10, 7/10⟩
        (Regime.sample_systemic ⟨fun _ => 0, 0⟩).1
        (Regime.sample_params_vals ⟨1, 1, 1, ⟨0, 0, 0, 0⟩, ⟨0, 0, 0, 0⟩, ⟨0, 0, 0, 0⟩⟩
          (Regime.sample_systemic ⟨fun _ => 0, 0⟩).1
          (Regime.sample_systemic ⟨fun _ => 0, 0⟩).2).1.1
        (Regime.sample_params_vals ⟨1, 1, 1, ⟨0, 0, 0, 0⟩, ⟨0, 0, 0, 0⟩, ⟨0, 0, 0, 0⟩⟩
          (Regime.sample_systemic ⟨fun _ => 0, 0⟩).1
          (Regime.sample_systemic ⟨fun _ => 0, 0⟩).2).1.2.1
        (Regime.sample_params_vals ⟨1, 1, 1, ⟨0, 0, 0, 0⟩, ⟨0, 0, 0, 0⟩, ⟨0, 0, 0, 0⟩⟩
          (Regime.sample_systemic ⟨fun _ => 0, 0⟩).1
          (Regime.sample_systemic ⟨fun _ => 0, 0⟩).2).1.2.2
        (Regime.sample_params_vals ⟨1, 1, 1, ⟨0, 0, 0, 0⟩, ⟨0, 0, 0, 0⟩, ⟨0, 0, 0, 0⟩⟩
          (Regime.sample_systemic ⟨fun _ => 0, 0⟩).1
          (Regime.sample_systemic ⟨fun _ => 0, 0⟩).2).2).rng.pos =
        (⟨fun _ => 0, 0⟩ : Rng).pos + 4 + 1 + 1 + 2) ∧
    ((Regime.rFold ⟨1, 1, 0, 1, 1, 1/2, 0, 3/10, 0, 1/10, 1/10, 7/10⟩
        (Regime.sample_systemic ⟨fun _ => 0, 0⟩).1
        (Regime.sample_params_vals ⟨1, 1, 1, ⟨0, 0, 0, 0⟩, ⟨0, 0, 0, 0⟩, ⟨0, 0, 0, 0⟩⟩
          (Regime.sample_systemic ⟨fun _ => 0, 0⟩).1
          (Regime.sample_systemic ⟨fun _ => 0, 0⟩).2).1.1
        (Regime.sample_params_vals ⟨1, 1, 1, ⟨0, 0, 0, 0⟩, ⟨0, 0, 0, 0⟩, ⟨0, 0, 0, 0⟩⟩
          (Regime.sample_systemic ⟨fun _ => 0, 0⟩).1
          (Regime.sample_systemic ⟨fun _ => 0, 0⟩).2).1.2.1
        (Regime.sample_params_vals ⟨1, 1, 1, ⟨0, 0, 0, 0⟩, ⟨0, 0, 0, 0⟩, ⟨0, 0, 0, 0⟩⟩
          (Regime.sample_systemic ⟨fun _ => 0, 0⟩).1
          (Regime.sample_systemic ⟨fun _ => 0, 0⟩).2).1.2.2
        (Regime.sample_params_vals ⟨1, 1, 1, ⟨0, 0, 0, 0⟩, ⟨0, 0, 0, 0⟩, ⟨0, 0, 0, 0⟩⟩
          (Regime.sample_systemic ⟨fun _ => 0, 0⟩).1
          (Regime.sample_systemic ⟨fun _ => 0, 0⟩).2).2).in_freeze = false →
      (Regime.rFold ⟨1, 1, 0, 1, 1, 1/2, 0, 3/10, 0, 1/10, 1/10, 7/10⟩
        (Regime.sample_systemic ⟨fun _ => 0, 0⟩).1
        (Regime.sample_params_vals ⟨1, 1, 1, ⟨0, 0, 0, 0⟩, ⟨0, 0, 0, 0⟩, ⟨0, 0, 0, 0⟩⟩
          (Regime.sample_systemic ⟨fun _ => 0, 0⟩).1
          (Regime.sample_systemic ⟨fun _ => 0, 0⟩).2).1.1
        (Regime.sample_params_vals ⟨1, 1, 1, ⟨0, 0, 0, 0⟩, ⟨0, 0, 0, 0⟩, ⟨0, 0, 0, 0⟩⟩
          (Regime.sample_systemic ⟨fun _ => 0, 0⟩).1
          (Regime.sample_systemic ⟨fun _ => 0, 0⟩).2).1.2.1
        (Regime.sample_params_vals ⟨1, 1, 1, ⟨0, 0, 0, 0⟩, ⟨0, 0, 0, 0⟩, ⟨0, 0, 0, 0⟩⟩
          (Regime.sample_systemic ⟨fun _ => 0, 0⟩).1
          (Regime.sample_systemic ⟨fun _ => 0, 0⟩).2).1.2.2
        (Regime.sample_params_vals ⟨1, 1, 1, ⟨0, 0, 0, 0⟩, ⟨0, 0, 0, 0⟩, ⟨0, 0, 0, 0⟩⟩
          (Regime.sample_systemic ⟨fun _ => 0, 0⟩).1
          (Regime.sample_systemic ⟨fun _ => 0, 0⟩).2).2).rng.pos =
        (⟨fun _ => 0, 0⟩ : Rng).pos + 4 + 1 + 1) :=
  regime_draw_count ⟨1, 1, 1, ⟨0, 0, 0, 0⟩, ⟨0, 0, 0, 0⟩, ⟨0, 0, 0, 0⟩⟩
    ⟨1, 1, 0, 1, 1, 1/2, 0, 3/10, 0, 1/10, 1/10, 7/10⟩ _ _ _ _ _ _ _ _
    (by norm_num) rfl rfl rfl rfl

lemma Waterfall.wList_length (re : RiskEngineCfg) (p : Waterfall.WParams) :
    ∀ (n : ℕ) (r : Rng), (Waterfall.wList re p n r).length = n := by
  intro n
  induction n with
  | zero => intro r; rfl
  | succ n ih =>
    intro r
    simp only [Waterfall.wList, List.length_cons, ih]

lemma Waterfall.wList_get (re : RiskEngineCfg) (p : Waterfall.WParams) :
    ∀ (n i : ℕ) (r : Rng), i < n →
      (Waterfall.wList re p n r)[i]? =
        some (Waterfall.wPath re p ((fun s => (Waterfall.wPath re p s).2)^[i] r)).1 := by
  intro n
  induction n with
  | zero => intro i r h; exact absurd h (Nat.not_lt_zero i)
  | succ n ih =>
    intro i r h
    cases i with
    | zero => simp [Waterfall.wList]
    | succ i =>
      simp only [Waterfall.wList, List.getElem?_cons_succ]
      rw [ih i _ (by omega), Function.iterate_succ_apply]

lemma Waterfall.run_aux_ok_w (cfg : Waterfall.WaterfallCfg) (re : RiskEngineCfg)
    (p : Waterfall.WParams) (hre : cfg.risk_engine = some re)
    (hp : Waterfall.read_params cfg = some p) :
    ∀ (n : ℕ) (r : Rng),
      Waterfall.run_aux cfg n r = some (Waterfall.wList re p n r) := by
  intro n
  induction n with
  | zero => intro r; rfl
  | succ n ih =>
    intro r
    simp only [Waterfall.run_aux, Waterfall.sample_params, hre,
      Waterfall.simulate_one_path_cfg, hp, Option.map_some', ih]
    simp only [Waterfall.wList, Waterfall.wPath]

lemma Waterfall.run_mc_ok_w (cfg : Waterfall.WaterfallCfg) (sd : ℤ) (sim : SimCfg)
    (re : RiskEngineCfg) (p : Waterfall.WParams)
    (hsd : cfg.seed = some sd) (hsim : cfg.sim = some sim)
    (hre : cfg.risk_engine = some re) (hp : Waterfall.read_params cfg = some p)
    (r : Rng) : Waterfall.run_mc cfg r = some (Waterfall.wList re p sim.N r) := by
  simp only [Waterfall.run_mc, hsd, hsim]
  exact Waterfall.run_aux_ok_w cfg re p hre hp sim.N r

lemma Regime.rList_length (re : RiskEngineCfg) (p : Regime.RParams) :
    ∀ (n : ℕ) (r : Rng), (Regime.rList re p n r).length = n := by
  intro n
  induction n with
  | zero => intro r; rfl
  | succ n ih =>
    intro r
    simp only [Regime.rList, List.length_cons, ih]

lemma Regime.rList_get (re : RiskEngineCfg) (p : Regime.RParams) :
    ∀ (n i : ℕ) (r : Rng), i < n →
      (Regime.rList re p n r)[i]? =
        some (Regime.rPath re p ((fun s => (Regime.rPath re p s).2)^[i] r)).1 := by
  intro n
  induction n with
  | zero => intro i r h; exact absurd h (Nat.not_lt_zero i)
  | succ n ih =>
    intro i r h
    cases i with
    | zero => simp [Regime.rList]
    | succ i =>
      simp only [Regime.rList, List.getElem?_cons_succ]
      rw [ih i _ (by omega), Function.iterate_succ_apply]

lemma Regime.run_aux_ok_r (cfg : Regime.RegimeCfg) (re : RiskEngineCfg)
    (p : Regime.RParams) (hre : cfg.risk_engine = some re)
    (hp : Regime.read_params cfg = some p) :
    ∀ (n : ℕ) (r : Rng), Regime.run_aux cfg n r = some (Regime.rList re p n r) := by
  intro n
  induction n with
  | zero => intro r; rfl
  | succ n ih =>
    intro r
    simp only [Regime.run_aux, Regime.sample_params, hre, Regime.simulate_one_path, hp,
      Option.map_some', ih]
    simp only [Regime.rList, Regime.rPath, Regime.simulate_path_core]

lemma Regime.run_mc_ok_r (cfg : Regime.RegimeCfg) (sd : ℤ) (sim : SimCfg)
    (re : RiskEngineCfg) (p : Regime.RParams)
    (hsd : cfg.seed = some sd) (hsim : cfg.sim = some sim)
    (hre : cfg.risk_engine = some re) (hp : Regime.read_params cfg = some p)
    (r : Rng) : Regime.run_mc cfg r = some (Regime.rList re p sim.N r) := by
  simp only [Regime.run_mc, hsd, hsim]
  exact Regime.run_aux_ok_r cfg re p hre hp sim.N r

/-- Claim C1: for every configuration, fixed seed (modelled as a fixed
draw stream) and path count N, two runs of the Monte Carlo orchestrator
(either variant) produce identical result tables; each run creates one
random source and threads it through exactly N sequential
(sampler, path-simulator) calls, and the N path results appear in
simulation order (the i-th table entry is produced by the i-th threaded
call). -/
theorem mc_determinism_and_threading :
    (∀ (c₁ c₂ : Waterfall.WaterfallCfg) (r₁ r₂ : Rng), c₁ = c₂ → r₁ = r₂ →
      Waterfall.run_mc c₁ r₁ = Waterfall.run_mc c₂ r₂) ∧
    (∀ (c₁ c₂ : Regime.RegimeCfg) (r₁ r₂ : Rng), c₁ = c₂ → r₁ = r₂ →
      Regime.run_mc c₁ r₁ = Regime.run_mc c₂ r₂) ∧
    (∀ (cfg : Waterfall.WaterfallCfg) (sd : ℤ) (sim : SimCfg) (re : RiskEngineCfg)
        (p : Waterfall.WParams) (r : Rng), cfg.seed = some sd → cfg.sim = some sim →
      cfg.risk_engine = some re → Waterfall.read_params cfg = some p →
      Waterfall.run_mc cfg r = some (Waterfall.wList re p sim.N r)) ∧
    (∀ (re : RiskEngineCfg) (p : Waterfall.WParams) (n : ℕ) (r : Rng),
      (Waterfall.wList re p n r).length = n) ∧
    (∀ (re : RiskEngineCfg) (p : Waterfall.WParams) (n i : ℕ) (r : Rng), i < n →
      (Waterfall.wList re p n r)[i]? =
        some (Waterfall.wPath re p ((fun s => (Waterfall.wPath re p s).2)^[i] r)).1) ∧
    (∀ (cfg : Regime.RegimeCfg) (sd : ℤ) (sim : SimCfg) (re : RiskEngineCfg)
        (p : Regime.RParams) (r : Rng), cfg.seed = some sd → cfg.sim = some sim →
      cfg.risk_engine = some re → Regime.read_params cfg = some p →
      Regime.run_mc cfg r = some (Regime.rList re p sim.N r)) ∧
    (∀ (re : RiskEngineCfg) (p : Regime.RParams) (n : ℕ) (r : Rng),
      (Regime.rList re p n r).length = n) ∧
    (∀ (re : RiskEngineCfg) (p : Regime.RParams) (n i : ℕ) (r : Rng), i < n →
      (Regime.rList re p n r)[i]? =
        some (Regime.rPath re p ((fun s => (Regime.rPath re p s).2)^[i] r)).1) := by
  refine ⟨?_, ?_, ?_, ?_, ?_, ?_, ?_, ?_⟩
  · intro c₁ c₂ r₁ r₂ hc hr
    rw [hc, hr]
  · intro c₁ c₂ r₁ r₂ hc hr
    rw [hc, hr]
  · intro cfg sd sim re p r h1 h2 h3 h4
    exact Waterfall.run_mc_ok_w cfg sd sim re p h1 h2 h3 h4 r
  · exact Waterfall.wList_length
  · intro re p n i r h
    exact Waterfall.wList_get re p n i r h
  · intro cfg sd sim re p r h1 h2 h3 h4
    exact Regime.run_mc_ok_r cfg sd sim re p h1 h2 h3 h4 r
  · exact Regime.rList_length
  · intro re p n i r h
    exact Regime.rList_get re p n i r h

/-- Witness for C1: a concrete one-path run of each variant. -/
theorem mc_determinism_and_threading_witness :
    Waterfall.run_mc ⟨some 0, some ⟨1, 1⟩, some ⟨1, 0⟩,
        some ⟨0, 0, 0, ⟨0, 0, 0, 0⟩, ⟨0, 0, 0, 0⟩, ⟨0, 0, 0, 0⟩⟩, none⟩ ⟨fun _ => 0, 0⟩ =
      Waterfall.run_mc ⟨some 0, some ⟨1, 1⟩, some ⟨1, 0⟩,
        some ⟨0, 0, 0, ⟨0, 0, 0, 0⟩, ⟨0, 0, 0, 0⟩, ⟨0, 0, 0, 0⟩⟩, none⟩ ⟨fun _ => 0, 0⟩ ∧
    Regime.run_mc ⟨some 0, some ⟨1, 1⟩, some ⟨1, 0⟩,
        some ⟨0, 0, 0, ⟨0, 0, 0, 0⟩, ⟨0, 0, 0, 0⟩, ⟨0, 0, 0, 0⟩⟩, none⟩ ⟨fun _ => 0, 0⟩ =
      Regime.run_mc ⟨some 0, some ⟨1, 1⟩, some ⟨1, 0⟩,
        some ⟨0, 0, 0, ⟨0, 0, 0, 0⟩, ⟨0, 0, 0, 0⟩, ⟨0, 0, 0, 0⟩⟩, none⟩ ⟨fun _ => 0, 0⟩ ∧
    Waterfall.run_mc ⟨some 0, some ⟨1, 1⟩, some ⟨1, 0⟩,
        some ⟨0, 0, 0, ⟨0, 0, 0, 0⟩, ⟨0, 0, 0, 0⟩, ⟨0, 0, 0, 0⟩⟩, none⟩ ⟨fun _ => 0, 0⟩ =
      some (Waterfall.wList ⟨0, 0, 0, ⟨0, 0, 0, 0⟩, ⟨0, 0, 0, 0⟩, ⟨0, 0, 0, 0⟩⟩
        ⟨1, 1, 0⟩ 1 ⟨fun _ => 0, 0⟩) ∧
    (Waterfall.wList ⟨0, 0, 0, ⟨0, 0, 0, 0⟩, ⟨0, 0, 0, 0⟩, ⟨0, 0, 0, 0⟩⟩
      ⟨1, 1, 0⟩ 1 ⟨fun _ => 0, 0⟩).length = 1 ∧
    (Waterfall.wList ⟨0, 0, 0, ⟨0, 0, 0, 0⟩, ⟨0, 0, 0, 0⟩, ⟨0, 0, 0, 0⟩⟩
        ⟨1, 1, 0⟩ 1 ⟨fun _ => 0, 0⟩)[0]? =
      some (Waterfall.wPath ⟨0, 0, 0, ⟨0, 0, 0, 0⟩, ⟨0, 0, 0, 0⟩, ⟨0, 0, 0, 0⟩⟩ ⟨1, 1, 0⟩
        ((fun s => (Waterfall.wPath ⟨0, 0, 0, ⟨0, 0, 0, 0⟩, ⟨0, 0, 0, 0⟩, ⟨0, 0, 0, 0⟩⟩
          ⟨1, 1, 0⟩ s).2)^[0] ⟨fun _ => 0, 0⟩)).1 ∧
    Regime.run_mc ⟨some 0, some ⟨1, 1⟩, some ⟨1, 0⟩,
        some ⟨0, 0, 0, ⟨0, 0, 0, 0⟩, ⟨0, 0, 0, 0⟩, ⟨0, 0, 0, 0⟩⟩, none⟩ ⟨fun _ => 0, 0⟩ =
      some (Regime.rList ⟨0, 0, 0, ⟨0, 0, 0, 0⟩, ⟨0, 0, 0, 0⟩, ⟨0, 0, 0, 0⟩⟩
        ⟨1, 1, 0, 0.06, 0.70, 0.50, 0.35, 0.30, 0.25, 0.10, 0.10, 0.70⟩ 1
        ⟨fun _ => 0, 0⟩) ∧
    (Regime.rList ⟨0, 0, 0, ⟨0, 0, 0, 0⟩, ⟨0, 0, 0, 0⟩, ⟨0, 0, 0, 0⟩⟩
      ⟨1, 1, 0, 0.06, 0.70, 0.50, 0.35, 0.30, 0.25, 0.10, 0.10, 0.70⟩ 1
      ⟨fun _ => 0, 0⟩).length = 1 ∧
    (Regime.rList ⟨0, 0, 0, ⟨0, 0, 0, 0⟩, ⟨0, 0, 0, 0⟩, ⟨0, 0, 0, 0⟩⟩
        ⟨1, 1, 0, 0.06, 0.70, 0.50, 0.35, 0.30, 0.25, 0.10, 0.10, 0.70⟩ 1
        ⟨fun _ => 0, 0⟩)[0]? =
      some (Regime.rPath ⟨0, 0, 0, ⟨0, 0, 0, 0⟩, ⟨0, 0, 0, 0⟩, ⟨0, 0, 0, 0⟩⟩
        ⟨1, 1, 0, 0.06, 0.70, 0.50, 0.35, 0.30, 0.25, 0.10, 0.10, 0.70⟩
        ((fun s => (Regime.rPath ⟨0, 0, 0, ⟨0, 0, 0, 0⟩, ⟨0, 0, 0, 0⟩, ⟨0, 0, 0, 0⟩⟩
          ⟨1, 1, 0, 0.06, 0.70, 0.50, 0.35, 0.30, 0.25, 0.10, 0.10, 0.70⟩ s).2)^[0]
          ⟨fun _ => 0, 0⟩)).1 :=
  ⟨mc_determinism_and_threading.1 _ _ _ _ rfl rfl,
   mc_determinism_and_threading.2.1 _ _ _ _ rfl rfl,
   mc_determinism_and_threading.2.2.1 _ 0 ⟨1, 1⟩ _ _ _ rfl rfl rfl rfl,
   mc_determinism_and_threading.2.2.2.1 _ _ 1 _,
   mc_determinism_and_threading.2.2.2.2.1 _ _ 1 0 _ (by norm_num),
   mc_determinism_and_threading.2.2.2.2.2.1 _ 0 ⟨1, 1⟩ _ _ _ rfl rfl rfl rfl,
   mc_determinism_and_threading.2.2.2.2.2.2.1 _ _ 1 _,
   mc_determinism_and_threading.2.2.2.2.2.2.2 _ _ 1 0 _ (by norm_num)⟩

lemma Regime.run_aux_length (cfg : Regime.RegimeCfg) :
    ∀ (n : ℕ) (r : Rng) (l : List Regime.RResult),
      Regime.run_aux cfg n r = some l → l.length = n := by
  intro n
  induction n with
  | zero =>
    intro r l h
    simp only [Regime.run_aux, Option.some.injEq] at h
    rw [← h]
    rfl
  | succ n ih =>
    intro r l h
    simp only [Regime.run_aux] at h
    split at h
    · exact absurd h (by simp)
    · split at h
      · exact absurd h (by simp)
      · split at h
        · exact absurd h (by simp)
        · rename_i rest haux
          rw [Option.some.injEq] at h
          rw [← h]
          simp only [List.length_cons, ih _ rest haux]

lemma Regime.run_aux_congr_r (cfg cfg' : Regime.RegimeCfg)
    (h1 : cfg.risk_engine = cfg'.risk_engine)
    (h2 : Regime.read_params cfg = Regime.read_params cfg') :
    ∀ n r, Regime.run_aux cfg n r = Regime.run_aux cfg' n r := by
  intro n
  induction n with
  | zero => intro r; rfl
  | succ n ih =>
    intro r
    simp only [Regime.run_aux, Regime.sample_params, Regime.simulate_one_path, h1, h2]
    cases cfg'.risk_engine with
    | none => rfl
    | some re =>
      cases Regime.read_params cfg' with
      | none => rfl
      | some p => simp [ih]

lemma Regime.read_params_funding_default (cfg : Regime.RegimeCfg) :
    Regime.read_params { cfg with funding := none } =
      Regime.read_params { cfg with funding := some Regime.defaultFunding } := by
  obtain ⟨sd, sm, pf, re, fu⟩ := cfg
  cases sm <;> cases pf <;> rfl

/-- The regime orchestrator cannot observe whether the `funding` section
is absent or explicitly set to the source's default values. -/
lemma Regime.run_mc_funding_default (cfg : Regime.RegimeCfg) (r : Rng) :
    Regime.run_mc { cfg with funding := none } r =
      Regime.run_mc { cfg with funding := some Regime.defaultFunding } r := by
  obtain ⟨sd, sm, pf, re, fu⟩ := cfg
  simp only [Regime.run_mc]
  cases sd with
  | none => rfl
  | some s =>
    cases sm with
    | none => rfl
    | some sim =>
      exact Regime.run_aux_congr_r ⟨some s, some sim, pf, re, none⟩
        ⟨some s, some sim, pf, re, some Regime.defaultFunding⟩ rfl
        (Regime.read_params_funding_default ⟨some s, some sim, pf, re, fu⟩) sim.N r

/-- Counterexample to claim C6 as stated: a configuration bundle with no
`funding` section at all — a key the spec's data model requires — on
which the regime orchestrator does not fail: it runs to completion,
silently substituting the hardcoded defaults (the run is
indistinguishable from one given the explicit default funding
values). -/
theorem missing_funding_cex :
    (⟨some 0, some ⟨1, 1⟩, some ⟨1, 0⟩,
        some ⟨0, 0, 0, ⟨0, 0, 0, 0⟩, ⟨0, 0, 0, 0⟩, ⟨0, 0, 0, 0⟩⟩, none⟩ :
      Regime.RegimeCfg).funding = none ∧
    (Regime.run_mc ⟨some 0, some ⟨1, 1⟩, some ⟨1, 0⟩,
        some ⟨0, 0, 0, ⟨0, 0, 0, 0⟩, ⟨0, 0, 0, 0⟩, ⟨0, 0, 0, 0⟩⟩, none⟩
      ⟨fun _ => 0, 0⟩).isSome = true ∧
    Regime.run_mc ⟨some 0, some ⟨1, 1⟩, some ⟨1, 0⟩,
        some ⟨0, 0, 0, ⟨0, 0, 0, 0⟩, ⟨0, 0, 0, 0⟩, ⟨0, 0, 0, 0⟩⟩, none⟩ ⟨fun _ => 0, 0⟩ =
      Regime.run_mc ⟨some 0, some ⟨1, 1⟩, some ⟨1, 0⟩,
        some ⟨0, 0, 0, ⟨0, 0, 0, 0⟩, ⟨0, 0, 0, 0⟩, ⟨0, 0, 0, 0⟩⟩,
        some Regime.defaultFunding⟩ ⟨fun _ => 0, 0⟩ := by
  refine ⟨rfl, ?_, ?_⟩
  · rw [Regime.run_mc_ok_r
      ⟨some 0, some ⟨1, 1⟩, some ⟨1, 0⟩,
        some ⟨0, 0, 0, ⟨0, 0, 0, 0⟩, ⟨0, 0, 0, 0⟩, ⟨0, 0, 0, 0⟩⟩, none⟩ 0 ⟨1, 1⟩
      ⟨0, 0, 0, ⟨0, 0, 0, 0⟩, ⟨0, 0, 0, 0⟩, ⟨0, 0, 0, 0⟩⟩
      ⟨1, 1, 0, 0.06, 0.70, 0.50, 0.35, 0.30, 0.25, 0.10, 0.10, 0.70⟩
      rfl rfl rfl rfl]
    rfl
  · exact Regime.run_mc_funding_default
      ⟨some 0, some ⟨1, 1⟩, some ⟨1, 0⟩,
        some ⟨0, 0, 0, ⟨0, 0, 0, 0⟩, ⟨0, 0, 0, 0⟩, ⟨0, 0, 0, 0⟩⟩, none⟩ ⟨fun _ => 0, 0⟩

/-- Claim C6 (amended): missing required keys that are read by
indexing — `seed`, the `sim` section, the `risk_engine` section, the
`portfolio` section — make the regime orchestrator fail (for the
per-path reads, during the first path) with no partial results: a run
returns either N full results or nothing.  The `funding` section is the
exception: its keys are read with `.get` defaults, so a missing funding
section does not fail and the hardcoded default values are silently
substituted. -/
theorem regime_fail_fast_and_defaults :
    (∀ (cfg : Regime.RegimeCfg) (r : Rng), cfg.seed = none →
      Regime.run_mc cfg r = none) ∧
    (∀ (cfg : Regime.RegimeCfg) (r : Rng), cfg.sim = none →
      Regime.run_mc cfg r = none) ∧
    (∀ (cfg : Regime.RegimeCfg) (sim : SimCfg) (r : Rng), cfg.sim = some sim →
      1 ≤ sim.N → cfg.risk_engine = none → Regime.run_mc cfg r = none) ∧
    (∀ (cfg : Regime.RegimeCfg) (sim : SimCfg) (r : Rng), cfg.sim = some sim →
      1 ≤ sim.N → cfg.portfolio = none → Regime.run_mc cfg r = none) ∧
    (∀ (cfg : Regime.RegimeCfg) (sim : SimCfg) (r : Rng) (l : List Regime.RResult),
      cfg.sim = some sim → Regime.run_mc cfg r = some l → l.length = sim.N) ∧
    (∀ (cfg : Regime.RegimeCfg) (r : Rng),
      Regime.run_mc { cfg with funding := none } r =
        Regime.run_mc { cfg with funding := some Regime.defaultFunding } r) := by
  refine ⟨?_, ?_, ?_, ?_, ?_, Regime.run_mc_funding_default⟩
  · intro cfg r h
    simp [Regime.run_mc, h]
  · intro cfg r h
    rcases hsd : cfg.seed with _ | sd <;> simp [Regime.run_mc, h, hsd]
  · intro cfg sim r hsim hN hre
    rcases hsd : cfg.seed with _ | sd
    · simp [Regime.run_mc, hsd]
    · obtain ⟨m, hm⟩ : ∃ m, sim.N = m + 1 := ⟨sim.N - 1, by omega⟩
      simp [Regime.run_mc, hsd, hsim, hm, Regime.run_aux, Regime.sample_params, hre]
  · intro cfg sim r hsim hN hpf
    rcases hsd : cfg.seed with _ | sd
    · simp [Regime.run_mc, hsd]
    · obtain ⟨m, hm⟩ : ∃ m, sim.N = m + 1 := ⟨sim.N - 1, by omega⟩
      rcases hre : cfg.risk_engine with _ | re <;>
        simp [Regime.run_mc, hsd, hsim, hm, Regime.run_aux, Regime.sample_params, hre,
          Regime.simulate_one_path, Regime.read_params, hpf]
  · intro cfg sim r l hsim h
    rcases hsd : cfg.seed with _ | sd
    · rw [Regime.run_mc] at h
      simp only [hsd] at h
      cases h
    · rw [Regime.run_mc] at h
      simp only [hsd, hsim] at h
      exact Regime.run_aux_length cfg sim.N r l h

/-- Witness for C6 (amended) at concrete configurations. -/
theorem regime_fail_fast_and_defaults_witness :
    Regime.run_mc ⟨none, none, none, none, none⟩ ⟨fun _ => 0, 0⟩ = none ∧
    Regime.run_mc ⟨some 0, some ⟨1, 1⟩, some ⟨1, 0⟩, none, none⟩ ⟨fun _ => 0, 0⟩ = none :=
  ⟨regime_fail_fast_and_defaults.1 _ _ rfl,
   regime_fail_fast_and_defaults.2.2.1 _ ⟨1, 1⟩ _ rfl (by norm_num) rfl⟩
